import Mathlib

/-!
Verification of the x402-echo-merchant payment pipeline.

This file gives a shallow embedding, in Lean 4, of the pure core of the
x402 echo merchant: the price resolver, the network registry and refund
dispatch, the facilitator response post-processing, the payment-gate
decode/match stage, the payment-response header codec (base64 + JSON),
and the paid-content rendering phase.

JavaScript numbers are modelled with exact rational semantics: a value
is either `NaN`, a signed `Infinity`, or a finite rational represented
as an unnormalized numerator/denominator pair (`Q0`), whose meaning in
`ℚ` is given by `Q0.val`.  IEEE-754 rounding of doubles is not
modelled; every concrete literal appearing in this code base (prices
like `$0.01` at 6 decimals) is exactly representable and the two
semantics agree on them.  Strings are Lean `String`s; bytes are `Nat`s
below 256.
-/

/-- An exact (unnormalized) rational: numerator, positive denominator.
Used instead of `ℚ` in executable positions so that every operation is
plain `Int`/`Nat` arithmetic. -/
structure Q0 where
  num : Int
  den : Nat
  den_pos : 0 < den
deriving DecidableEq

/-- The rational denoted by a `Q0`. -/
def Q0.val (x : Q0) : ℚ := (x.num : ℚ) / (x.den : ℚ)

/-- `Q0` for an integer. -/
def Q0.ofInt (n : Int) : Q0 := ⟨n, 1, Nat.one_pos⟩

/-- Nearest integer with ties toward positive infinity (the rounding
used by both `Math.round` and `Number.prototype.toFixed`), computed on
the fraction `n / d` by integer floor division. -/
def roundHalfUp (n : Int) (d : Nat) : Int := (2 * n + (d : Int)) / (2 * (d : Int))

/-- A JavaScript number: `NaN`, a signed `Infinity`, or a finite value
modelled exactly. -/
inductive JSNum where
  | nan : JSNum
  | inf (neg : Bool) : JSNum
  | num (x : Q0) : JSNum
deriving DecidableEq

/-- Whitespace accepted (and skipped) by JavaScript `parseFloat`. -/
def isJsSpace (c : Char) : Bool :=
  c = ' ' || c = '\t' || c = '\n' || c = '\r' || c.toNat = 11 || c.toNat = 12

/-- Numeric value of a list of decimal digit characters. -/
def digitsVal (l : List Char) : Nat :=
  l.foldl (fun n c => n * 10 + (c.toNat - 48)) 0

/-- Does `pre` occur literally at the head of `l`? -/
def leadingMatch : List Char → List Char → Bool
  | [], _ => true
  | _ :: _, [] => false
  | p :: ps, c :: cs => p = c && leadingMatch ps cs

/-- Exponent part of a `parseFloat` literal: consumes `[+-]?digits` and
returns the signed exponent, or `0` when no digit follows (JavaScript
`parseFloat` then stops before the `e`). -/
def parseFloatExp (l : List Char) : Int :=
  let (eneg, l1) : Bool × List Char :=
    match l with
    | '-' :: rest => (true, rest)
    | '+' :: rest => (false, rest)
    | _ => (false, l)
  let ds := l1.takeWhile Char.isDigit
  if ds.isEmpty then 0
  else if eneg then -(digitsVal ds : Int) else (digitsVal ds : Int)

/-- The finite value `sign * (ip + fp / 10^fl) * 10^e` as a `Q0`. -/
def mantissaQ0 (neg : Bool) (ip fp fl : Nat) (e : Int) : Q0 :=
  let base : Int := (ip * 10 ^ fl + fp : Nat)
  let n : Int := if neg then -base else base
  if 0 ≤ e then
    ⟨n * 10 ^ e.toNat, 10 ^ fl, pow_pos (by decide) fl⟩
  else
    ⟨n, 10 ^ fl * 10 ^ (-e).toNat,
      Nat.mul_pos (pow_pos (by decide) fl) (pow_pos (by decide) (-e).toNat)⟩

/-- Mantissa-and-onwards part of `parseFloat`, after whitespace and sign
have been consumed: parses the longest decimal-literal prefix and
returns `NaN` when there is none. -/
def parseFloatBody (neg : Bool) (l : List Char) : JSNum :=
  if leadingMatch ['I', 'n', 'f', 'i', 'n', 'i', 't', 'y'] l then JSNum.inf neg
  else
    let intDigits := l.takeWhile Char.isDigit
    let rest1 := l.dropWhile Char.isDigit
    let (fracDigits, rest2) : List Char × List Char :=
      match rest1 with
      | '.' :: r => (r.takeWhile Char.isDigit, r.dropWhile Char.isDigit)
      | _ => ([], rest1)
    if intDigits.isEmpty && fracDigits.isEmpty then JSNum.nan
    else
      let e : Int :=
        match rest2 with
        | 'e' :: r => parseFloatExp r
        | 'E' :: r => parseFloatExp r
        | _ => 0
      JSNum.num (mantissaQ0 neg (digitsVal intDigits) (digitsVal fracDigits) fracDigits.length e)

/-- JavaScript `parseFloat` on a list of characters: skip whitespace,
read an optional sign, then the longest decimal (or `Infinity`)
literal; `NaN` when no literal is present. -/
def parseFloatQ (l : List Char) : JSNum :=
  let l1 := l.dropWhile isJsSpace
  match l1 with
  | '-' :: rest => parseFloatBody true rest
  | '+' :: rest => parseFloatBody false rest
  | _ => parseFloatBody false l1

/-- `Math.round`: nearest integer, ties toward positive infinity;
`NaN` and infinities are preserved. -/
def jsRound : JSNum → JSNum
  | JSNum.nan => JSNum.nan
  | JSNum.inf s => JSNum.inf s
  | JSNum.num x => JSNum.num (Q0.ofInt (roundHalfUp x.num x.den))

/-- Multiplication by the positive constant `Math.pow(10, d)` (exact for
the 6-decimal stablecoins used here). -/
def jsMulPow10 (n : JSNum) (d : Nat) : JSNum :=
  match n with
  | JSNum.nan => JSNum.nan
  | JSNum.inf s => JSNum.inf s
  | JSNum.num x => JSNum.num ⟨x.num * 10 ^ d, x.den, x.den_pos⟩

/-- `Number.prototype.toString` restricted to the values produced by
`Math.round`: integral values print as decimal integers, `NaN` and
infinities by name.  (Non-integral finite values never reach this
function in the embedded code.) -/
def jsNumToString : JSNum → String
  | JSNum.nan => "NaN"
  | JSNum.inf neg => if neg then "-Infinity" else "Infinity"
  | JSNum.num x =>
    if x.num % (x.den : Int) = 0 then toString (x.num / (x.den : Int))
    else toString x.num ++ "/" ++ toString x.den

/-- EIP-712 domain data attached to an EVM stablecoin. -/
structure Eip712Domain where
  name : String
  version : String
deriving DecidableEq

/-- The `asset` component of an `ERC20TokenAmount`. -/
structure AssetDescriptor where
  address : String
  decimals : Nat
  eip712 : Option Eip712Domain
deriving DecidableEq

/-- A `Price` route configuration value: a string, a number, or a
pre-resolved token amount (`ERC20TokenAmount`). -/
inductive Price where
  | str (s : String) : Price
  | num (n : JSNum) : Price
  | token (amount : String) (asset : AssetDescriptor) : Price
deriving DecidableEq

/-- One row of the `USDC_ADDRESSES` table. -/
structure UsdcInfo where
  address : String
  decimals : Nat
  name : String
  version : String
deriving DecidableEq

/-- The per-network stablecoin table `USDC_ADDRESSES` from the
x402-helpers module, verbatim. -/
def USDC_ADDRESSES (network : String) : Option UsdcInfo :=
  if network = "base" then
    some ⟨"0x833589fCD6eDb6E08f4c7C32D4f71b54bdA02913", 6, "USD Coin", "2"⟩
  else if network = "base-sepolia" then
    some ⟨"0x036CbD53842c5426634e7929541eC2318f3dCF7e", 6, "USDC", "2"⟩
  else if network = "avalanche" then
    some ⟨"0xB97EF9Ef8734C71904D8002F8b6Bc66Dd9c48a6E", 6, "USD Coin", "2"⟩
  else if network = "avalanche-fuji" then
    some ⟨"0x5425890298aed601595a70AB815c96711a31Bc65", 6, "USDC", "2"⟩
  else if network = "sei" then
    some ⟨"0x3894085Ef7Ff0f0aeDf52E2A2704928d1Ec074F1", 6, "USDC", "2"⟩
  else if network = "sei-testnet" then
    some ⟨"0x4E4a29f76cD0dFf2A4e5E56d7a065E0aF33f32e2", 6, "USDC", "2"⟩
  else if network = "polygon" then
    some ⟨"0x3c499c542cEF5E3811e1192ce70d8cC03d5c3359", 6, "USD Coin", "2"⟩
  else if network = "polygon-amoy" then
    some ⟨"0x41E94Eb019C0762f9Bfcf9Fb1E58725BfB0e7582", 6, "USDC", "2"⟩
  else if network = "peaq" then
    some ⟨"0x7A98288740407E1A0db5E18C4BE9a6F42FE77e40", 6, "USDC", "2"⟩
  else if network = "iotex" then
    some ⟨"0x3B2bf2b523f54C4E454F08Aa286D03115aFF326c", 6, "USDC", "2"⟩
  else if network = "xlayer" then
    some ⟨"0x74b7F16337b8972027F6196A17a631aC6dE26d22", 6, "USDC", "2"⟩
  else if network = "xlayer-testnet" then
    some ⟨"0xcb8bf24c6ce16ad21d707c9505421a17f2bec79d", 6, "USDC", "2"⟩
  else if network = "skale-base" then
    some ⟨"0x85889c8c714505E0c94b30fcfcF64fE3Ac8FCb20", 6, "Bridged USDC (SKALE Bridge)", "2"⟩
  else if network = "skale-base-sepolia" then
    some ⟨"0x2e08028E3C4c2356572E096d8EF835cD5C6030bD", 6, "Bridged USDC (SKALE Bridge)", "2"⟩
  else if network = "solana" then
    some ⟨"EPjFWdd5AufqSSqeM2qN1xzybapC8G4wEGGkZwyTDt1v", 6, "USD Coin", "2"⟩
  else if network = "solana-devnet" then
    some ⟨"4zMMC9srt5Ri5X14GAgXhaHii3GnPAEERYPJgZJDncDU", 6, "USDC", "2"⟩
  else none

/-- The `moneySchema` zod union: a string is transformed by stripping an
optional leading `$` and applying `parseFloat` (this transform cannot
fail — an unparseable string yields `NaN`, and zod does not validate
transform outputs); a number is checked by `z.number()`, which rejects
`NaN` (zod types `NaN` as `nan`, not `number`); any other value fails
the union. -/
def moneySchemaSafeParse : Price → Option JSNum
  | Price.str s =>
    some (match s.data with
      | '$' :: rest => parseFloatQ rest
      | l => parseFloatQ l)
  | Price.num n =>
    match n with
    | JSNum.nan => none
    | m => some m
  | Price.token _ _ => none

/-- Result of `processPriceToAtomicAmount`: either an atomic amount with
its asset descriptor, or an error message. -/
inductive PriceResult where
  | ok (amount : String) (asset : AssetDescriptor) : PriceResult
  | error (msg : String) : PriceResult
deriving DecidableEq

/-- Is this result the `error` variant? -/
def PriceResult.isErr : PriceResult → Bool
  | PriceResult.ok _ _ => false
  | PriceResult.error _ => true

/-- `processPriceToAtomicAmount` from the x402-helpers module: for a
string or number price, run `moneySchema` (a failure yields the
template-literal error `Invalid price format: ${price}`), look up the
network's USDC entry, and return `Math.round(value * 10^decimals)`
rendered as a string; a pre-resolved token amount is passed through
unchanged. -/
def processPriceToAtomicAmount (price : Price) (network : String) : PriceResult :=
  match price with
  | Price.token amount asset => PriceResult.ok amount asset
  | p =>
    match moneySchemaSafeParse p with
    | none => PriceResult.error ("Invalid price format: " ++
        (match p with
         | Price.str s => s
         | Price.num n => jsNumToString n
         | Price.token a _ => a))
    | some v =>
      match USDC_ADDRESSES network with
      | none => PriceResult.error ("No USDC address configured for network: " ++ network)
      | some info =>
        let atomicAmount := jsRound (jsMulPow10 v info.decimals)
        PriceResult.ok (jsNumToString atomicAmount)
          ⟨info.address, info.decimals, some ⟨info.name, info.version⟩⟩

/-- Last-wins association lookup, matching JavaScript object-literal
key semantics (`Object.fromEntries` keeps the last duplicate). -/
def assocLast (l : List (String × String)) (k : String) : Option String :=
  l.foldl (fun acc kv => if kv.1 = k then some kv.2 else acc) none

/-- The `NETWORK_TO_CAIP2` table from the x402-helpers module. -/
def NETWORK_TO_CAIP2 : List (String × String) :=
  [("base", "eip155:8453"),
   ("base-sepolia", "eip155:84532"),
   ("avalanche", "eip155:43114"),
   ("avalanche-fuji", "eip155:43113"),
   ("polygon", "eip155:137"),
   ("polygon-amoy", "eip155:80002"),
   ("sei", "eip155:1329"),
   ("sei-testnet", "eip155:713715"),
   ("xlayer", "eip155:196"),
   ("xlayer-testnet", "eip155:1952"),
   ("peaq", "eip155:3338"),
   ("iotex", "eip155:4689"),
   ("skale-base", "eip155:1187947933"),
   ("skale-base-sepolia", "eip155:324705682"),
   ("solana", "solana:5eykt4UsFv8P8NJdTREpY1vzqKqZKvdp"),
   ("solana-devnet", "solana:EtWTRABZaYq6iMfeYKouRu166VU2xqa1")]

/-- `CAIP2_TO_NETWORK`: the inverse mapping, built by swapping every
entry, exactly as the source does with `Object.fromEntries`. -/
def CAIP2_TO_NETWORK : List (String × String) :=
  NETWORK_TO_CAIP2.map (fun kv => (kv.2, kv.1))

/-- `SupportedEVMNetworks` from the x402-helpers module. -/
def SupportedEVMNetworks : List String :=
  ["base", "base-sepolia", "avalanche", "avalanche-fuji", "polygon", "polygon-amoy",
   "sei", "sei-testnet", "xlayer", "xlayer-testnet", "peaq", "iotex",
   "skale-base", "skale-base-sepolia"]

/-- `SupportedSVMNetworks` from the x402-helpers module. -/
def SupportedSVMNetworks : List String := ["solana", "solana-devnet"]

/-- `getFriendlyNetworkName` from `refund.ts`: identifiers without a
colon pass through; CAIP-2 identifiers are looked up in
`CAIP2_TO_NETWORK`, falling back (by JavaScript `||`) to the input when
the lookup is absent or falsy. -/
def getFriendlyNetworkName (network : String) : String :=
  if ¬ network.data.contains ':' then network
  else
    match assocLast CAIP2_TO_NETWORK network with
    | some v => if v.isEmpty then network else v
    | none => network

/-- The kind of signer produced by `getSigner`. -/
inductive SignerKind where
  | evmWallet (network : String) : SignerKind
  | svmKeypair : SignerKind
deriving DecidableEq

/-- `getSigner` from `refund.ts`: Solana networks get a keypair signer;
each supported EVM network gets a wallet client for its chain; anything
else throws `Unsupported network`. -/
def getSigner (network : String) : Except String SignerKind :=
  if network = "solana-devnet" then Except.ok SignerKind.svmKeypair
  else if network = "solana" then Except.ok SignerKind.svmKeypair
  else if network = "avalanche" then Except.ok (SignerKind.evmWallet "avalanche")
  else if network = "avalanche-fuji" then Except.ok (SignerKind.evmWallet "avalanche-fuji")
  else if network = "base-sepolia" then Except.ok (SignerKind.evmWallet "base-sepolia")
  else if network = "base" then Except.ok (SignerKind.evmWallet "base")
  else if network = "sei" then Except.ok (SignerKind.evmWallet "sei")
  else if network = "sei-testnet" then Except.ok (SignerKind.evmWallet "sei-testnet")
  else if network = "xlayer" then Except.ok (SignerKind.evmWallet "xlayer")
  else if network = "xlayer-testnet" then Except.ok (SignerKind.evmWallet "xlayer-testnet")
  else if network = "iotex" then Except.ok (SignerKind.evmWallet "iotex")
  else if network = "polygon" then Except.ok (SignerKind.evmWallet "polygon")
  else if network = "polygon-amoy" then Except.ok (SignerKind.evmWallet "polygon-amoy")
  else if network = "peaq" then Except.ok (SignerKind.evmWallet "peaq")
  else if network = "skale-base" then Except.ok (SignerKind.evmWallet "skale-base")
  else if network = "skale-base-sepolia" then Except.ok (SignerKind.evmWallet "skale-base-sepolia")
  else Except.error ("Unsupported network: " ++ network)

/-- Payment requirements as they exist at runtime.  The middleware
builds objects carrying `maxAmountRequired`; the refund engine's local
interface instead names an `amount` field.  Both are optional here, as
in the untyped JavaScript values that actually flow between them. -/
structure PaymentRequirements where
  scheme : String
  network : String
  payTo : String
  asset : String
  amount : Option String
  maxAmountRequired : Option String
  maxTimeoutSeconds : Nat
  resource : Option String
  description : Option String
  mimeType : Option String
  extra : List (String × String)
deriving DecidableEq

/-- The on-chain transfer a refund would submit: for EVM, the ERC-20
`transfer(to, amount)` call on the token contract; for Solana, a
transfer-checked of `amount` from the merchant to the recipient's
associated token account for `mint`. -/
inductive TransferCall where
  | evmTransfer (contract : String) (toAddress : String) (amount : Option String) : TransferCall
  | svmTransfer (destinationOwner : String) (mint : String) (amount : Option String) : TransferCall
deriving DecidableEq

/-- `refund` from `refund.ts`, abstracted over viem's `getAddress`
checksum normalization (`getAddr`).  Returns the transfer it submits;
`Except.ok none` models the function completing with `undefined` after
falling through both network-family branches without performing any
transfer. -/
def refund (getAddr : String → String) (recipient : String)
    (selectedPaymentRequirements : PaymentRequirements) : Except String (Option TransferCall) :=
  let networkForSigner := getFriendlyNetworkName selectedPaymentRequirements.network
  if SupportedEVMNetworks.contains networkForSigner then
    match getSigner networkForSigner with
    | Except.error e => Except.error e
    | Except.ok _ =>
      Except.ok (some (TransferCall.evmTransfer
        (getAddr selectedPaymentRequirements.asset)
        (getAddr recipient)
        selectedPaymentRequirements.amount))
  else if SupportedSVMNetworks.contains networkForSigner then
    match getSigner networkForSigner with
    | Except.error e => Except.error e
    | Except.ok _ =>
      Except.ok (some (TransferCall.svmTransfer
        recipient
        selectedPaymentRequirements.asset
        selectedPaymentRequirements.amount))
  else
    Except.ok none

/-- The EVM payment requirements the Payment Gate builds in
`paymentMiddleware` (middleware.ts): note the atomic value goes into
`maxAmountRequired` and no `amount` field exists on the object. -/
def buildEvmPaymentRequirements (network : String) (maxAmountRequired : String)
    (resourceUrl : String) (description : Option String) (mimeType : Option String)
    (payToChecksummed : String) (maxTimeoutSeconds : Option Nat)
    (assetChecksummed : String) (eip712 : Eip712Domain) : PaymentRequirements :=
  { scheme := "exact"
    network := network
    payTo := payToChecksummed
    asset := assetChecksummed
    amount := none
    maxAmountRequired := some maxAmountRequired
    maxTimeoutSeconds := maxTimeoutSeconds.getD 300
    resource := some resourceUrl
    description := some (description.getD "")
    mimeType := some (mimeType.getD "application/json")
    extra := [("name", eip712.name), ("version", eip712.version)] }

/-- A parsed JSON value.  Numbers are exact rationals (`Q0`): the JSON
grammar has no `NaN`/`Infinity`, and IEEE-754 rounding of extreme
literals is not modelled. -/
inductive Json where
  | null : Json
  | bool (b : Bool) : Json
  | num (x : Q0) : Json
  | str (s : String) : Json
  | arr (items : List Json) : Json
  | obj (fields : List (String × Json)) : Json

/-- JavaScript property access `v[k]` for the purposes of this model:
an object field (last duplicate wins, as after `JSON.parse`); `none`
(i.e. `undefined`) on arrays and primitives for the property names used
here. -/
def jsonField : Json → String → Option Json
  | Json.obj flds, k => flds.foldl (fun acc kv => if kv.1 = k then some kv.2 else acc) none
  | _, _ => none

/-- JavaScript truthiness of a JSON value. -/
def jsTruthy : Json → Bool
  | Json.null => false
  | Json.bool b => b
  | Json.num x => x.num != 0
  | Json.str s => !s.isEmpty
  | Json.arr _ => true
  | Json.obj _ => true

mutual

/-- JavaScript string coercion (template literals) of a JSON value. -/
def jsToString : Json → String
  | Json.null => "null"
  | Json.bool b => if b then "true" else "false"
  | Json.num x => jsNumToString (JSNum.num x)
  | Json.str s => s
  | Json.arr items => jsToStringItems items
  | Json.obj _ => "[object Object]"

/-- `Array.prototype.toString`: elements joined by commas. -/
def jsToStringItems : List Json → String
  | [] => ""
  | [v] => jsToString v
  | v :: rest => jsToString v ++ "," ++ jsToStringItems rest

end

/-- The field `k` of `d` when it is present and truthy, else `none`
(the shape of every `if (data.k)` test in `extractErrorMessage`). -/
def truthyField (d : Json) (k : String) : Option Json :=
  match jsonField d k with
  | some v => if jsTruthy v then some v else none
  | none => none

/-- `extractErrorMessage` from `facilitator.ts`: probe `error`, then
`invalidReason` (appending a truthy `invalidMessage`), then
`errorReason` (appending a truthy `errorMessage`), then `message`, in
that order, falling back to `fallback`; a missing or falsy body also
falls back.  The returned value is whatever the chosen field held
(stringified only when two fields are joined). -/
def extractErrorMessage (data : Option Json) (fallback : String) : Json :=
  match data with
  | none => Json.str fallback
  | some d =>
    if !(jsTruthy d) then Json.str fallback
    else
      match truthyField d "error" with
      | some e => e
      | none =>
        match truthyField d "invalidReason" with
        | some ir =>
          match truthyField d "invalidMessage" with
          | some im => Json.str (jsToString ir ++ ": " ++ jsToString im)
          | none => ir
        | none =>
          match truthyField d "errorReason" with
          | some er =>
            match truthyField d "errorMessage" with
            | some em => Json.str (jsToString er ++ ": " ++ jsToString em)
            | none => er
          | none =>
            match truthyField d "message" with
            | some m => m
            | none => Json.str fallback

/-- The synthesized soft-failure body
`{isValid: false, invalidReason: ...}` built by `verify`. -/
def verifySynthesized (data : Option Json) (status : Nat) : Json :=
  Json.obj [("isValid", Json.bool false),
    ("invalidReason", extractErrorMessage data ("facilitator_verify_http_" ++ toString status))]

/-- The response post-processing of `useFacilitator(...).verify` in
`facilitator.ts`: `data` is the parsed body (`none` when `res.json()`
threw), `status` the HTTP status.  A body that is an object carrying a
boolean `isValid` is returned as-is; otherwise a soft failure is
synthesized.  The guard `data && isValid in data` evaluates `in` only
on truthy values; on a truthy primitive (string/number/`true`) the
JavaScript `in` operator throws a `TypeError`, modelled as
`Except.error`. -/
def verifyHandleResponse (data : Option Json) (status : Nat) : Except String Json :=
  match data with
  | some d =>
    if jsTruthy d then
      match d with
      | Json.obj _ =>
        match jsonField d "isValid" with
        | some (Json.bool _) => Except.ok d
        | _ => Except.ok (verifySynthesized data status)
      | Json.arr _ => Except.ok (verifySynthesized data status)
      | _ => Except.error "TypeError: cannot use in operator on a primitive"
    else Except.ok (verifySynthesized data status)
  | none => Except.ok (verifySynthesized data status)

/-- UTF-8 encoding of one Unicode scalar value (1–4 bytes). -/
def utf8EncodeChar (n : Nat) : List Nat :=
  if n < 0x80 then [n]
  else if n < 0x800 then [0xC0 + n / 64, 0x80 + n % 64]
  else if n < 0x10000 then [0xE0 + n / 4096, 0x80 + n / 64 % 64, 0x80 + n % 64]
  else [0xF0 + n / 262144, 0x80 + n / 4096 % 64, 0x80 + n / 64 % 64, 0x80 + n % 64]

/-- UTF-8 encoding of a string (as a character list) into bytes. -/
def utf8Encode : List Char → List Nat
  | [] => []
  | c :: rest => utf8EncodeChar c.toNat ++ utf8Encode rest

/-- Is `b` a UTF-8 continuation byte? -/
def isCont (b : Nat) : Bool := 0x80 ≤ b && b < 0xC0

/-- One step of strict UTF-8 decoding, fueled: rejects stray or
missing continuation bytes, overlong encodings, surrogate code points
and values beyond U+10FFFF.  The fuel decreases once per decoded
character; since every character consumes at least one byte, the
input length is always enough fuel. -/
def utf8DecodeLoop : Nat → List Nat → Option (List Char)
  | _, [] => some []
  | 0, _ :: _ => none
  | fuel + 1, b :: rest =>
    if b < 128 then (utf8DecodeLoop fuel rest).map (fun l => Char.ofNat b :: l)
    else if b < 192 then none
    else if b < 224 then
      match rest with
      | b1 :: rest1 =>
        if isCont b1 then
          let n := (b - 192) * 64 + (b1 - 128)
          if 128 ≤ n then (utf8DecodeLoop fuel rest1).map (fun l => Char.ofNat n :: l) else none
        else none
      | [] => none
    else if b < 240 then
      match rest with
      | b1 :: b2 :: rest2 =>
        if isCont b1 && isCont b2 then
          let n := (b - 224) * 4096 + (b1 - 128) * 64 + (b2 - 128)
          if 2048 ≤ n && !(55296 ≤ n && n < 57344) then
            (utf8DecodeLoop fuel rest2).map (fun l => Char.ofNat n :: l)
          else none
        else none
      | _ => none
    else if b < 248 then
      match rest with
      | b1 :: b2 :: b3 :: rest3 =>
        if isCont b1 && isCont b2 && isCont b3 then
          let n := (b - 240) * 262144 + (b1 - 128) * 4096 + (b2 - 128) * 64 + (b3 - 128)
          if 65536 ≤ n && n < 1114112 then
            (utf8DecodeLoop fuel rest3).map (fun l => Char.ofNat n :: l)
          else none
        else none
      | _ => none
    else none

/-- Strict UTF-8 decoding of a byte list. -/
def utf8Decode (l : List Nat) : Option (List Char) := utf8DecodeLoop l.length l

/-- The base64 alphabet. -/
def base64Chars : List Char :=
  "ABCDEFGHIJKLMNOPQRSTUVWXYZabcdefghijklmnopqrstuvwxyz0123456789+/".data

/-- Character for a sextet. -/
def b64Char (n : Nat) : Char := base64Chars.getD n 'A'

/-- Sextet for a character, `none` outside the alphabet. -/
def b64Val (c : Char) : Option Nat := List.findIdx? (fun a => a = c) base64Chars

/-- RFC 4648 base64 encoding of a byte list, with `=` padding. -/
def base64Encode : List Nat → List Char
  | [] => []
  | [a] => [b64Char (a / 4), b64Char (a % 4 * 16), '=', '=']
  | [a, b] => [b64Char (a / 4), b64Char (a % 4 * 16 + b / 16), b64Char (b % 16 * 4), '=']
  | a :: b :: c :: rest =>
    b64Char (a / 4) :: b64Char (a % 4 * 16 + b / 16) :: b64Char (b % 16 * 4 + c / 64)
      :: b64Char (c % 64) :: base64Encode rest

/-- Base64 decoding (the model of `atob`): strict groups of four
characters, `=` padding only in the final group. -/
def base64Decode : List Char → Option (List Nat)
  | [] => some []
  | c1 :: c2 :: c3 :: c4 :: rest =>
    match b64Val c1, b64Val c2 with
    | some s1, some s2 =>
      if c3 = '=' then
        if c4 = '=' && rest.isEmpty then some [s1 * 4 + s2 / 16] else none
      else
        match b64Val c3 with
        | some s3 =>
          if c4 = '=' then
            if rest.isEmpty then some [s1 * 4 + s2 / 16, s2 % 16 * 16 + s3 / 4] else none
          else
            match b64Val c4 with
            | some s4 =>
              (base64Decode rest).map
                (fun bs => (s1 * 4 + s2 / 16) :: (s2 % 16 * 16 + s3 / 4) :: (s3 % 4 * 64 + s4) :: bs)
            | none => none
        | none => none
    | _, _ => none
  | _ => none

/-- Value of a hexadecimal digit character. -/
def hexVal (c : Char) : Option Nat :=
  let n := c.toNat
  if 48 ≤ n && n ≤ 57 then some (n - 48)
  else if 97 ≤ n && n ≤ 102 then some (n - 87)
  else if 65 ≤ n && n ≤ 70 then some (n - 55)
  else none

/-- Lowercase hexadecimal digit for a value below 16. -/
def hexDigit (n : Nat) : Char :=
  if n < 10 then Char.ofNat (48 + n) else Char.ofNat (87 + n)

/-- `JSON.stringify` escaping of one character: quote and backslash get
two-character escapes, the five named control characters their short
forms, other control characters a `\u00xx` escape, everything else is
emitted literally. -/
def escapeChar (c : Char) : List Char :=
  if c = '"' then ['\\', '"']
  else if c = '\\' then ['\\', '\\']
  else if c.toNat = 8 then ['\\', 'b']
  else if c.toNat = 9 then ['\\', 't']
  else if c.toNat = 10 then ['\\', 'n']
  else if c.toNat = 12 then ['\\', 'f']
  else if c.toNat = 13 then ['\\', 'r']
  else if c.toNat < 32 then ['\\', 'u', '0', '0', hexDigit (c.toNat / 16), hexDigit (c.toNat % 16)]
  else [c]

/-- `JSON.stringify` escaping of a character list. -/
def escapeList : List Char → List Char
  | [] => []
  | c :: rest => escapeChar c ++ escapeList rest

/-- Decode one JSON string escape (the characters after a backslash):
the named single-character escapes and `\\uXXXX` escapes, including
surrogate pairs (a lone surrogate is rejected, as Lean `Char` cannot
represent it).  Returns the decoded character and the remaining
input. -/
def parseEscape : List Char → Option (Char × List Char)
  | [] => none
  | e :: r =>
    if e = '"' then some ('"', r)
    else if e = '\\' then some ('\\', r)
    else if e = '/' then some ('/', r)
    else if e = 'b' then some (Char.ofNat 8, r)
    else if e = 't' then some (Char.ofNat 9, r)
    else if e = 'n' then some (Char.ofNat 10, r)
    else if e = 'f' then some (Char.ofNat 12, r)
    else if e = 'r' then some (Char.ofNat 13, r)
    else if e = 'u' then
      match r with
      | h1 :: h2 :: h3 :: h4 :: r2 =>
        match hexVal h1, hexVal h2, hexVal h3, hexVal h4 with
        | some a, some b, some g, some d =>
          let n := a * 4096 + b * 256 + g * 16 + d
          if 55296 ≤ n && n < 56320 then
            match r2 with
            | '\\' :: 'u' :: j1 :: j2 :: j3 :: j4 :: r3 =>
              match hexVal j1, hexVal j2, hexVal j3, hexVal j4 with
              | some a2, some b2, some g2, some d2 =>
                let m := a2 * 4096 + b2 * 256 + g2 * 16 + d2
                if 56320 ≤ m && m < 57344 then
                  some (Char.ofNat (65536 + (n - 55296) * 1024 + (m - 56320)), r3)
                else none
              | _, _, _, _ => none
            | _ => none
          else if 56320 ≤ n && n < 57344 then none
          else some (Char.ofNat n, r2)
        | _, _, _, _ => none
      | _ => none
    else none

/-- Parse the body of a JSON string literal (after the opening quote)
up to and including the closing quote, fueled (one unit per consumed
character is always enough); returns the decoded characters and the
remaining input. -/
def parseStringBodyLoop : Nat → List Char → Option (List Char × List Char)
  | _, [] => none
  | 0, _ :: _ => none
  | fuel + 1, c :: rest =>
    if c = '"' then some ([], rest)
    else if c = '\\' then
      match parseEscape rest with
      | some (d, r) => (parseStringBodyLoop fuel r).map (fun p => (d :: p.1, p.2))
      | none => none
    else if c.toNat < 32 then none
    else (parseStringBodyLoop fuel rest).map (fun p => (c :: p.1, p.2))

/-- Parse a JSON string literal body, supplying the input length as
fuel. -/
def parseStringBody (l : List Char) : Option (List Char × List Char) :=
  parseStringBodyLoop l.length l

/-- Exponent part of a JSON number (after `e`/`E`): sign and at least
one digit, else the whole number literal is invalid. -/
def parseExpPart (l : List Char) : Option (Int × List Char) :=
  let (eneg, l1) : Bool × List Char :=
    match l with
    | '-' :: r => (true, r)
    | '+' :: r => (false, r)
    | _ => (false, l)
  let ds := l1.takeWhile Char.isDigit
  if ds.isEmpty then none
  else some ((if eneg then -(digitsVal ds : Int) else (digitsVal ds : Int)), l1.drop ds.length)

/-- Parse a JSON number literal (grammar of `JSON.parse`). -/
def parseJsonNumber (l : List Char) : Option (Q0 × List Char) :=
  let (neg, l1) : Bool × List Char :=
    match l with
    | '-' :: r => (true, r)
    | _ => (false, l)
  match l1 with
  | [] => none
  | c :: _ =>
    if !c.isDigit then none
    else
      let intDigits := if c = '0' then ['0'] else l1.takeWhile Char.isDigit
      let l2 := l1.drop intDigits.length
      let fracRes : Option (List Char × List Char) :=
        match l2 with
        | '.' :: r =>
          let fd := r.takeWhile Char.isDigit
          if fd.isEmpty then none else some (fd, r.drop fd.length)
        | _ => some ([], l2)
      match fracRes with
      | none => none
      | some (fracDigits, l3) =>
        let expRes : Option (Int × List Char) :=
          match l3 with
          | 'e' :: r => parseExpPart r
          | 'E' :: r => parseExpPart r
          | _ => some (0, l3)
        match expRes with
        | none => none
        | some (e, l4) =>
          some (mantissaQ0 neg (digitsVal intDigits) (digitsVal fracDigits) fracDigits.length e, l4)

/-- JSON whitespace. -/
def isJsonWs (c : Char) : Bool := c = ' ' || c = '\t' || c = '\n' || c = '\r'

/-- Skip JSON whitespace. -/
def skipWs (l : List Char) : List Char := l.dropWhile isJsonWs

mutual

/-- Recursive-descent JSON value parser (the model of `JSON.parse`).
`fuel` bounds nesting; `jsonParse` supplies enough for any input. -/
def parseValue : Nat → List Char → Option (Json × List Char)
  | 0, _ => none
  | fuel + 1, l =>
    match skipWs l with
    | [] => none
    | c :: rest =>
      if c = 'n' then
        match rest with
        | 'u' :: 'l' :: 'l' :: r => some (Json.null, r)
        | _ => none
      else if c = 't' then
        match rest with
        | 'r' :: 'u' :: 'e' :: r => some (Json.bool true, r)
        | _ => none
      else if c = 'f' then
        match rest with
        | 'a' :: 'l' :: 's' :: 'e' :: r => some (Json.bool false, r)
        | _ => none
      else if c = '"' then
        (parseStringBody rest).map (fun p => (Json.str (String.mk p.1), p.2))
      else if c = '[' then
        match skipWs rest with
        | ']' :: r => some (Json.arr [], r)
        | r1 => (parseItems fuel r1).map (fun p => (Json.arr p.1, p.2))
      else if c = '{' then
        match skipWs rest with
        | '}' :: r => some (Json.obj [], r)
        | r1 => (parseMembers fuel r1).map (fun p => (Json.obj p.1, p.2))
      else
        (parseJsonNumber (c :: rest)).map (fun p => (Json.num p.1, p.2))

/-- Parse the elements of a non-empty JSON array, including the
closing bracket. -/
def parseItems : Nat → List Char → Option (List Json × List Char)
  | 0, _ => none
  | fuel + 1, l =>
    match parseValue fuel l with
    | none => none
    | some (v, r1) =>
      match skipWs r1 with
      | ',' :: r2 => (parseItems fuel r2).map (fun p => (v :: p.1, p.2))
      | ']' :: r2 => some ([v], r2)
      | _ => none

/-- Parse the members of a non-empty JSON object, including the
closing brace. -/
def parseMembers : Nat → List Char → Option (List (String × Json) × List Char)
  | 0, _ => none
  | fuel + 1, l =>
    match skipWs l with
    | '"' :: rest =>
      match parseStringBody rest with
      | none => none
      | some (k, r1) =>
        match skipWs r1 with
        | ':' :: r2 =>
          match parseValue fuel r2 with
          | none => none
          | some (v, r3) =>
            match skipWs r3 with
            | ',' :: r4 => (parseMembers fuel r4).map (fun p => ((String.mk k, v) :: p.1, p.2))
            | '}' :: r4 => some ([(String.mk k, v)], r4)
            | _ => none
        | _ => none
    | _ => none

end

/-- `JSON.parse`: parse one value and require only whitespace to
remain. -/
def jsonParse (l : List Char) : Option Json :=
  match parseValue (l.length + 1) l with
  | some (v, rest) => if (skipWs rest).isEmpty then some v else none
  | none => none

mutual

/-- `JSON.stringify` (no indentation), restricted as in `jsNumToString`
for non-integral numbers. -/
def serializeJson : Json → List Char
  | Json.null => ['n', 'u', 'l', 'l']
  | Json.bool true => ['t', 'r', 'u', 'e']
  | Json.bool false => ['f', 'a', 'l', 's', 'e']
  | Json.num x => (jsNumToString (JSNum.num x)).data
  | Json.str s => '"' :: (escapeList s.data ++ ['"'])
  | Json.arr items => '[' :: (serializeItems items ++ [']'])
  | Json.obj fields => '{' :: (serializeMembers fields ++ ['}'])

/-- Serialize array elements, comma-separated. -/
def serializeItems : List Json → List Char
  | [] => []
  | [v] => serializeJson v
  | v :: rest => serializeJson v ++ ',' :: serializeItems rest

/-- Serialize object members, comma-separated. -/
def serializeMembers : List (String × Json) → List Char
  | [] => []
  | [kv] => '"' :: (escapeList kv.1.data ++ '"' :: ':' :: serializeJson kv.2)
  | kv :: rest =>
    ('"' :: (escapeList kv.1.data ++ '"' :: ':' :: serializeJson kv.2)) ++ ',' :: serializeMembers rest

end

/-- The decode pipeline of the payment-response header on the
content-handler side (`JSON.parse(atob(header))`): base64-decode to
bytes, view the bytes as UTF-8 text, parse as JSON. -/
def decodeBase64Json (header : List Char) : Option Json :=
  match base64Decode header with
  | none => none
  | some bytes =>
    match utf8Decode bytes with
    | none => none
    | some chars => jsonParse chars

/-- Modelled from the spec: `safeBase64Encode` is imported from the
external `@payai/x402` package and is not part of this repository; the
spec describes the payment-response header as base64-encoded JSON, so
it is modelled as base64 over the UTF-8 bytes of the text. -/
def safeBase64Encode (text : List Char) : List Char := base64Encode (utf8Encode text)

/-- The `responseHeaderData` object built in `paymentMiddleware` after
a successful settlement (middleware.ts): `transaction`,
`transactionId` and `signature` all carry the settlement transaction. -/
def responseHeaderData (transaction network payer : String) : Json :=
  Json.obj [("success", Json.bool true),
    ("transaction", Json.str transaction),
    ("transactionId", Json.str transaction),
    ("signature", Json.str transaction),
    ("network", Json.str network),
    ("payer", Json.str payer)]

/-- The payment-response header as the Payment Gate encodes it:
`safeBase64Encode(JSON.stringify(responseHeaderData))`. -/
def encodePaymentResponseHeader (transaction network payer : String) : List Char :=
  safeBase64Encode (serializeJson (responseHeaderData transaction network payer))

/-- `decodePayment` (x402-helpers): the proof-of-payment header is
base64-decoded and `JSON.parse`d; any failure throws, modelled as
`none`. -/
def decodePayment (paymentHeader : List Char) : Option Json :=
  decodeBase64Json paymentHeader

/-- The runtime view of a decoded payment payload: the `accepted`
property and the top-level `scheme`/`network` properties, each possibly
absent (`undefined`) or of any JSON type — the payload is untrusted
parsed JSON. -/
structure PaymentPayload where
  accepted : Option Json
  topScheme : Option Json
  topNetwork : Option Json

/-- Project the properties `findMatchingPaymentRequirements` reads out
of a decoded payload. -/
def payloadOfJson (j : Json) : PaymentPayload :=
  { accepted := jsonField j "accepted"
    topScheme := jsonField j "scheme"
    topNetwork := jsonField j "network" }

/-- JavaScript strict equality `s === v` between a known string and an
arbitrary (possibly `undefined`) value. -/
def strictEqStr (s : String) : Option Json → Bool
  | some (Json.str t) => s = t
  | _ => false

/-- The fallback branch of `findMatchingPaymentRequirements`: match the
top-level `scheme` (defaulting by `||` to `"exact"`) and `network`
properties. -/
def findMatchingFallback (requirements : List PaymentRequirements)
    (decodedPayment : PaymentPayload) : Option PaymentRequirements :=
  let scheme : Json :=
    match decodedPayment.topScheme with
    | some v => if jsTruthy v then v else Json.str "exact"
    | none => Json.str "exact"
  requirements.find? (fun req =>
    (match scheme with
     | Json.str s => req.scheme = s
     | _ => false) && strictEqStr req.network decodedPayment.topNetwork)

/-- `findMatchingPaymentRequirements` (x402-helpers): when the payload
carries a truthy `accepted` value, return the first requirement whose
`(scheme, network)` strictly equals `accepted`'s; otherwise fall back
to the top-level properties. -/
def findMatchingPaymentRequirements (requirements : List PaymentRequirements)
    (decodedPayment : PaymentPayload) : Option PaymentRequirements :=
  match decodedPayment.accepted with
  | some acc =>
    if jsTruthy acc then
      requirements.find? (fun req =>
        strictEqStr req.scheme (jsonField acc "scheme")
          && strictEqStr req.network (jsonField acc "network"))
    else findMatchingFallback requirements decodedPayment
  | none => findMatchingFallback requirements decodedPayment

/-- Outcome of the Payment Gate's decode-and-match stage
(middleware.ts, after the `X-PAYMENT` header was found present). -/
inductive VerifyStage where
  | response402 (error : String) (accepts : List PaymentRequirements) : VerifyStage
  | proceed (selected : PaymentRequirements) : VerifyStage
deriving DecidableEq

/-- HTTP status carried by a decode-and-match stage outcome (`none`
while the pipeline proceeds). -/
def VerifyStage.status : VerifyStage → Option Nat
  | VerifyStage.response402 _ _ => some 402
  | VerifyStage.proceed _ => none

/-- The decode-and-match stage of `paymentMiddleware`: decode the
proof-of-payment header inside `try`; a thrown decode error is caught
and answered with a 402 `Invalid payment` body carrying the accepts
list (the source embeds the caught `Error` object itself in the `error`
field; the fallback string is `"Invalid payment"`).  A decoded payload
with no matching requirement is answered with 402
`Unable to find matching payment requirements`. -/
def paymentVerificationStage (paymentHeader : List Char)
    (paymentRequirements : List PaymentRequirements) : VerifyStage :=
  match decodePayment paymentHeader with
  | none => VerifyStage.response402 "Invalid payment" paymentRequirements
  | some j =>
    match findMatchingPaymentRequirements paymentRequirements (payloadOfJson j) with
    | none => VerifyStage.response402 "Unable to find matching payment requirements" paymentRequirements
    | some sel => VerifyStage.proceed sel

/-- `Number.prototype.toFixed(2)` for non-negative finite values (the
only ones reaching it here, behind an `amount > 0` guard): round to
hundredths, ties toward the larger value, then print with exactly two
fraction digits. -/
def toFixed2 (x : Q0) : String :=
  let n := (roundHalfUp (x.num * 100) x.den).toNat
  toString (n / 100) ++ "." ++ (if n % 100 < 10 then "0" ++ toString (n % 100) else toString (n % 100))

/-- `toFixed(2)` lifted to JavaScript numbers. -/
def jsToFixed2 : JSNum → String
  | JSNum.nan => "NaN"
  | JSNum.inf neg => if neg then "-Infinity" else "Infinity"
  | JSNum.num x => toFixed2 x

/-- `convertPriceToString` (middleware.ts): strings pass through,
numbers become `$<toFixed(2)>`, token amounts fall back to `$0.01`. -/
def convertPriceToString : Price → String
  | Price.str s => s
  | Price.num n => "$" ++ jsToFixed2 n
  | Price.token _ _ => "$0.01"

/-- Substring test (`String.prototype.includes`). -/
def containsSub (hay needle : List Char) : Bool :=
  if leadingMatch needle hay then true
  else
    match hay with
    | [] => false
    | _ :: t => containsSub t needle

/-- `getRequestedAmount` (middleware.ts): `contentLength` and
`contentType` are the raw header values (`none` when absent), `body`
is the result of `request.json()` (`none` when it threw a
`SyntaxError`, which the `catch` turns into the default price).  A
JSON body with a truthy numeric `amount > 0` overrides the configured
price as `$<amount.toFixed(2)>`; a body parsing to `null` makes
`body.amount` throw a `TypeError`, which the `catch` deliberately
rethrows (`Except.error`); every other shape keeps the default
(property access on the remaining primitives boxes and yields
`undefined`). -/
def getRequestedAmount (contentLength contentType : Option String)
    (body : Option Json) (defaultAmount : Price) : Except String String :=
  if (match contentLength with
      | none => true
      | some s => s.isEmpty)
      || contentLength = some "0"
      || !(match contentType with
           | some ct => containsSub ct.data "application/json".data
           | none => false) then
    Except.ok (convertPriceToString defaultAmount)
  else
    match body with
    | none => Except.ok (convertPriceToString defaultAmount)
    | some Json.null =>
      Except.error "TypeError: Cannot read properties of null (reading 'amount')"
    | some b =>
      match jsonField b "amount" with
      | some (Json.num x) =>
        if jsTruthy (Json.num x) && decide (0 < x.num) then
          Except.ok ("$" ++ jsToFixed2 (JSNum.num x))
        else Except.ok (convertPriceToString defaultAmount)
      | _ => Except.ok (convertPriceToString defaultAmount)

/-- A per-route configuration (`RouteConfig`): the configured price and
network. -/
structure RouteConfig where
  price : Price
  network : String
deriving DecidableEq

/-- The per-chain dispatcher in `middleware` builds
`dynamicConfig = { ...config, price: requestedAmount }`: the route's
configured price is replaced by the string returned from
`getRequestedAmount`. -/
def dynamicRouteConfig (cfg : RouteConfig) (requestedAmount : String) : RouteConfig :=
  { cfg with price := Price.str requestedAmount }

/-- The response produced by the paid-content handler. -/
structure HandlerResponse where
  status : Nat
  contentType : String
  error : Option String
  transaction : Option String
  network : Option String
  payer : Option String
  premiumContent : Option String
  refundTransaction : Option String
  refundFailed : Bool
deriving DecidableEq

/-- Modelled from the spec: `src/lib/paidContentHandler.ts` is not
among the provided sources (only its unit tests are).  Per spec §6 and
the tests: no payment-response header ⟹ 402 `Payment info missing`;
an undecodable header ⟹ 500 `Invalid payment info json.`; otherwise
200 with the decoded `transaction`/`network`/`payer` (network
defaulting to the route's network), the fixed `premiumContent`, and
either `refundTransaction` (hash present) or `refundFailed` (hash
absent); HTML or JSON is chosen by content negotiation (`wantsHtml`). -/
def handlePaidContentRequest (paymentResponseHeader : Option (List Char)) (wantsHtml : Bool)
    (defaultNetwork : String) (refundTxHash : Option String) : HandlerResponse :=
  match paymentResponseHeader with
  | none =>
    { status := 402, contentType := "application/json"
      error := some "Payment info missing. Did you pay?"
      transaction := none, network := none, payer := none
      premiumContent := none, refundTransaction := none, refundFailed := false }
  | some h =>
    match decodeBase64Json h with
    | none =>
      { status := 500, contentType := "application/json"
        error := some "Invalid payment info json."
        transaction := none, network := none, payer := none
        premiumContent := none, refundTransaction := none, refundFailed := false }
    | some j =>
      { status := 200
        contentType := if wantsHtml then "text/html; charset=utf-8" else "application/json"
        error := none
        transaction :=
          match jsonField j "transaction" with
          | some (Json.str s) => some s
          | _ => none
        network := some
          ((match jsonField j "network" with
            | some (Json.str s) => some s
            | _ => none).getD defaultNetwork)
        payer :=
          match jsonField j "payer" with
          | some (Json.str s) => some s
          | _ => none
        premiumContent := some "Have some rizz!"
        refundTransaction := refundTxHash
        refundFailed := refundTxHash.isNone }

/-- The settlement verdict the Payment Gate works from (fields as used
on the success path, where the facilitator supplied strings). -/
structure SettleOutcome where
  success : Bool
  transaction : String
  network : String
  payer : Option String
  errorReason : Option String
deriving DecidableEq

/-- Outcome of the internal refund sub-request
(`fetch(/api/facilitator/refund)`): an OK response carrying
`refundTxHash`, or any non-OK response. -/
inductive RefundCallOutcome where
  | ok (refundTxHash : String) : RefundCallOutcome
  | httpError : RefundCallOutcome
deriving DecidableEq

/-- The final response of `paymentMiddleware` after settlement. -/
inductive GateFinal where
  | plainNext (paymentResponseHeader : List Char) : GateFinal
  | handlerResponse (resp : HandlerResponse) (paymentResponseHeader : List Char) : GateFinal
  | settleFailed402 (errorReason : Option String) : GateFinal
deriving DecidableEq

/-- HTTP status of the final response (`NextResponse.next()` passes the
downstream 200 through). -/
def GateFinal.status : GateFinal → Nat
  | GateFinal.plainNext _ => 200
  | GateFinal.handlerResponse resp _ => resp.status
  | GateFinal.settleFailed402 _ => 402

/-- JavaScript `a || b || ""` over two optional strings. -/
def jsOrElse (a b : Option String) : String :=
  match a with
  | some s => if s.isEmpty then jsOrElseTail b else s
  | none => jsOrElseTail b
where
  jsOrElseTail : Option String → String
    | some t => if t.isEmpty then "" else t
    | none => ""

/-- The post-settlement phase of `paymentMiddleware` (middleware.ts):
on success, resolve the payer (`settlement.payer || verification.payer
|| ""`), encode the payment-response header, skip the refund for an
empty payer, and otherwise render through the paid-content handler —
with the refund hash when the refund sub-request succeeded, without it
(so the handler flags `refundFailed`) when it did not.  An unsuccessful
settlement yields 402. -/
def postSettlementPhase (settlement : SettleOutcome) (verificationPayer : Option String)
    (refundOutcome : RefundCallOutcome) (wantsHtml : Bool) (network : String) : GateFinal :=
  if settlement.success then
    let payer := jsOrElse settlement.payer verificationPayer
    let header := encodePaymentResponseHeader settlement.transaction settlement.network payer
    if payer = "" then GateFinal.plainNext header
    else
      match refundOutcome with
      | RefundCallOutcome.ok hash =>
        GateFinal.handlerResponse
          (handlePaidContentRequest (some header) wantsHtml network (some hash)) header
      | RefundCallOutcome.httpError =>
        GateFinal.handlerResponse
          (handlePaidContentRequest (some header) wantsHtml network none) header
  else GateFinal.settleFailed402 settlement.errorReason

/-- Values of the restricted JSON shapes appearing in the
payment-response header object (booleans and strings). -/
def simpleJson : Json → Bool
  | Json.bool _ => true
  | Json.str _ => true
  | _ => false

/-! ## Theorems -/

theorem roundHalfUp_eq_floor (n : Int) (d : Nat) (hd : 0 < d) :
    roundHalfUp n d = ⌊((n : ℚ) / (d : ℚ)) + 1 / 2⌋ := by
  have hd0 : (d : ℚ) ≠ 0 := by exact_mod_cast hd.ne'
  have h : ((n : ℚ) / (d : ℚ)) + 1 / 2 = ((2 * n + (d : Int) : ℤ) : ℚ) / ((2 * d : ℕ) : ℚ) := by
    push_cast
    field_simp
    ring
  rw [h, Rat.floor_intCast_div_natCast]
  unfold roundHalfUp
  norm_num

theorem jsNumToString_ofInt (i : Int) : jsNumToString (JSNum.num (Q0.ofInt i)) = toString i := by
  simp [jsNumToString, Q0.ofInt, Int.emod_one]

theorem roundedAmount_eq_floor (x : Q0) (d : Nat) :
    jsNumToString (jsRound (jsMulPow10 (JSNum.num x) d)) =
      toString ⌊x.val * (10 : ℚ) ^ d + 1 / 2⌋ := by
  have hden : ((x.den : ℚ)) ≠ 0 := by exact_mod_cast x.den_pos.ne'
  rw [show jsRound (jsMulPow10 (JSNum.num x) d)
      = JSNum.num (Q0.ofInt (roundHalfUp (x.num * 10 ^ d) x.den)) from rfl]
  rw [jsNumToString_ofInt, roundHalfUp_eq_floor _ _ x.den_pos]
  congr 2
  unfold Q0.val
  push_cast
  field_simp

/-- C3: for every USD-like price (a string, optionally `$`-prefixed, or
a number) that parses to a finite value `x`, and every network with a
configured stablecoin, the Price Resolver returns
`round(usdValue * 10^decimals)` (ties up) as a decimal string together
with that stablecoin's asset descriptor. -/
theorem priceResolver_usd_amount (p : Price) (x : Q0) (network : String) (info : UsdcInfo)
    (hp : moneySchemaSafeParse p = some (JSNum.num x))
    (hn : USDC_ADDRESSES network = some info) :
    processPriceToAtomicAmount p network =
      PriceResult.ok (toString ⌊x.val * (10 : ℚ) ^ info.decimals + 1 / 2⌋)
        ⟨info.address, info.decimals, some ⟨info.name, info.version⟩⟩ := by
  cases p with
  | token a s => simp [moneySchemaSafeParse] at hp
  | str s =>
    simp only [processPriceToAtomicAmount, hp, hn]
    rw [roundedAmount_eq_floor]
  | num n =>
    simp only [processPriceToAtomicAmount, hp, hn]
    rw [roundedAmount_eq_floor]

/-- C3 witness: price `"$0.01"` on `base` (6 decimals) yields amount
`"10000"`. -/
theorem priceResolver_usd_amount_witness :
    processPriceToAtomicAmount (Price.str "$0.01") "base" =
      PriceResult.ok "10000"
        ⟨"0x833589fCD6eDb6E08f4c7C32D4f71b54bdA02913", 6, some ⟨"USD Coin", "2"⟩⟩ := by
  have h := priceResolver_usd_amount (Price.str "$0.01") ⟨1, 100, by decide⟩ "base"
    ⟨"0x833589fCD6eDb6E08f4c7C32D4f71b54bdA02913", 6, "USD Coin", "2"⟩ (by decide) (by decide)
  have hfl : ⌊(Q0.val ⟨1, 100, by decide⟩) * (10 : ℚ) ^ (6 : Nat) + 1 / 2⌋ = (10000 : ℤ) := by
    have : (Q0.val ⟨1, 100, by decide⟩) * (10 : ℚ) ^ (6 : Nat) + 1 / 2
        = ((20001 : ℤ) : ℚ) / ((2 : ℕ) : ℚ) := by
      unfold Q0.val
      norm_num
    rw [this, Rat.floor_intCast_div_natCast]
    decide
  rw [h, hfl]
  decide

/-- C4 counterexample: the price string `"abc"` is not parseable as a
number, yet the Price Resolver returns `{amount: "NaN"}` — not an
`{error}` value — because the zod `moneySchema` transform accepts
`parseFloat`'s `NaN`. -/
theorem priceResolver_unparseable_counterexample :
    processPriceToAtomicAmount (Price.str "abc") "base" =
      PriceResult.ok "NaN"
        ⟨"0x833589fCD6eDb6E08f4c7C32D4f71b54bdA02913", 6, some ⟨"USD Coin", "2"⟩⟩
    ∧ (processPriceToAtomicAmount (Price.str "abc") "base").isErr = false := by
  exact ⟨by decide, by decide⟩

/-- C4 (amended): for string or number prices, the Price Resolver
returns the `Invalid price format` error only for a `NaN` number price
(which `z.number()` rejects); every string price passes the schema —
an unparseable string yields `NaN` rather than a parse failure — so on
a configured network it produces `amount = "NaN"` with the network's
asset descriptor instead of a descriptive error; and the resolver
errors when the network has no configured stablecoin. -/
theorem priceResolver_error_conditions (p : Price) (network : String) :
    (∀ v, moneySchemaSafeParse p = some v → USDC_ADDRESSES network = none →
      processPriceToAtomicAmount p network =
        PriceResult.error ("No USDC address configured for network: " ++ network))
    ∧ (moneySchemaSafeParse p = some JSNum.nan →
        ∀ info, USDC_ADDRESSES network = some info →
          processPriceToAtomicAmount p network =
            PriceResult.ok "NaN" ⟨info.address, info.decimals, some ⟨info.name, info.version⟩⟩)
    ∧ (p = Price.num JSNum.nan →
        processPriceToAtomicAmount p network =
          PriceResult.error ("Invalid price format: " ++ "NaN"))
    ∧ (∀ s, p = Price.str s → ∃ v, moneySchemaSafeParse p = some v) := by
  refine ⟨?_, ?_, ?_, ?_⟩
  · intro v hv hn
    cases p with
    | token a s => simp [moneySchemaSafeParse] at hv
    | str s => simp only [processPriceToAtomicAmount, hv, hn]
    | num n => simp only [processPriceToAtomicAmount, hv, hn]
  · intro hv info hn
    cases p with
    | token a s => simp [moneySchemaSafeParse] at hv
    | str s => simp only [processPriceToAtomicAmount, hv, hn]; rfl
    | num n => simp only [processPriceToAtomicAmount, hv, hn]; rfl
  · intro hp
    subst hp
    rfl
  · intro s hp
    subst hp
    exact ⟨_, rfl⟩

/-- C4 witness: `"abc"` on an unconfigured network errors; `"abc"` on
`base` yields `"NaN"`; the number price `NaN` fails the schema with
the format error. -/
theorem priceResolver_error_conditions_witness :
    processPriceToAtomicAmount (Price.str "abc") "fakenet" =
      PriceResult.error ("No USDC address configured for network: " ++ "fakenet")
    ∧ processPriceToAtomicAmount (Price.str "abc") "base" =
      PriceResult.ok "NaN"
        ⟨"0x833589fCD6eDb6E08f4c7C32D4f71b54bdA02913", 6, some ⟨"USD Coin", "2"⟩⟩
    ∧ processPriceToAtomicAmount (Price.num JSNum.nan) "base" =
      PriceResult.error ("Invalid price format: " ++ "NaN") := by
  refine ⟨(priceResolver_error_conditions (Price.str "abc") "fakenet").1 JSNum.nan (by decide) (by decide),
    (priceResolver_error_conditions (Price.str "abc") "base").2.1 (by decide)
      ⟨"0x833589fCD6eDb6E08f4c7C32D4f71b54bdA02913", 6, "USD Coin", "2"⟩ (by decide),
    (priceResolver_error_conditions (Price.num JSNum.nan) "base").2.2.1 rfl⟩

theorem getSigner_ok_of_supported (m : String)
    (h : SupportedEVMNetworks.contains m = true ∨ SupportedSVMNetworks.contains m = true) :
    ∃ s, getSigner m = Except.ok s := by
  simp only [SupportedEVMNetworks, SupportedSVMNetworks, List.contains_cons,
    List.contains_nil, Bool.or_eq_true, beq_iff_eq] at h
  rcases h with (rfl | rfl | rfl | rfl | rfl | rfl | rfl | rfl | rfl | rfl | rfl | rfl | rfl | rfl | h) | (rfl | rfl | h) <;>
    first
      | exact ⟨_, rfl⟩
      | simp at h

/-- C2 counterexample: requirements on the unrecognized network
`eip155:999999` make `refund` fall through both network-family branches
and complete with `undefined` — no transfer is performed and no
`Unsupported network` error is raised, contradicting the claim. -/
theorem refund_unknown_network_counterexample :
    refund id "0xabc"
      { scheme := "exact", network := "eip155:999999", payTo := "0xme", asset := "0xtoken",
        amount := some "10000", maxAmountRequired := none, maxTimeoutSeconds := 300,
        resource := none, description := none, mimeType := none, extra := [] }
      = Except.ok none := by rfl

/-- C2 (amended): for every recipient and requirements whose network,
after CAIP-2 normalization, is in neither the supported EVM list nor
the supported Solana list, `refund` performs no transfer and completes
silently, returning `undefined` and raising no error; the
`Unsupported network` error is raised only by `getSigner` (as the
second conjunct shows), which `refund` never reaches for such
networks. -/
theorem refund_unknown_network_silent (getAddr : String → String) (recipient : String)
    (reqs : PaymentRequirements)
    (hEvm : SupportedEVMNetworks.contains (getFriendlyNetworkName reqs.network) = false)
    (hSvm : SupportedSVMNetworks.contains (getFriendlyNetworkName reqs.network) = false) :
    refund getAddr recipient reqs = Except.ok none
    ∧ getSigner (getFriendlyNetworkName reqs.network) =
        Except.error ("Unsupported network: " ++ getFriendlyNetworkName reqs.network) := by
  have h1 : getFriendlyNetworkName reqs.network ∉ SupportedEVMNetworks := by
    simpa using hEvm
  have h2 : getFriendlyNetworkName reqs.network ∉ SupportedSVMNetworks := by
    simpa using hSvm
  constructor
  · unfold refund
    simp [h1, h2]
  · simp only [SupportedEVMNetworks, SupportedSVMNetworks, List.contains_cons,
      List.contains_nil, Bool.or_eq_false_iff, beq_eq_false_iff_ne, ne_eq] at hEvm hSvm
    unfold getSigner
    simp [hEvm.1, hEvm.2.1, hEvm.2.2.1, hEvm.2.2.2.1, hEvm.2.2.2.2.1, hEvm.2.2.2.2.2.1,
      hEvm.2.2.2.2.2.2.1, hEvm.2.2.2.2.2.2.2.1, hEvm.2.2.2.2.2.2.2.2.1,
      hEvm.2.2.2.2.2.2.2.2.2.1, hEvm.2.2.2.2.2.2.2.2.2.2.1, hEvm.2.2.2.2.2.2.2.2.2.2.2.1,
      hEvm.2.2.2.2.2.2.2.2.2.2.2.2.1, hEvm.2.2.2.2.2.2.2.2.2.2.2.2.2.1,
      hSvm.1, hSvm.2.1]

/-- C2 witness: a non-CAIP network name `foonet` outside both lists. -/
theorem refund_unknown_network_silent_witness :
    refund id "0xabc"
      { scheme := "exact", network := "foonet", payTo := "0xme", asset := "0xtoken",
        amount := some "10000", maxAmountRequired := none, maxTimeoutSeconds := 300,
        resource := none, description := none, mimeType := none, extra := [] }
      = Except.ok none
    ∧ getSigner (getFriendlyNetworkName "foonet") =
        Except.error ("Unsupported network: " ++ getFriendlyNetworkName "foonet") := by
  exact refund_unknown_network_silent id "0xabc" _ (by decide) (by decide)

/-- C10: on every refund whose normalized network is in the supported
EVM list, the ERC-20 transfer is invoked with the checksum-normalized
token contract and recipient and with the requirements' `amount` field
passed through unchanged (no validation or conversion); and every
requirement the Payment Gate builds carries the atomic value only under
`maxAmountRequired`, its `amount` being absent. -/
theorem refund_evm_transfer_args (getAddr : String → String) (recipient : String)
    (reqs : PaymentRequirements)
    (hEvm : SupportedEVMNetworks.contains (getFriendlyNetworkName reqs.network) = true) :
    refund getAddr recipient reqs =
      Except.ok (some (TransferCall.evmTransfer (getAddr reqs.asset) (getAddr recipient)
        reqs.amount))
    ∧ ∀ network maxAmt resourceUrl description mimeType payTo maxTimeout asset eip712,
        (buildEvmPaymentRequirements network maxAmt resourceUrl description mimeType payTo
          maxTimeout asset eip712).amount = none := by
  have h1 : getFriendlyNetworkName reqs.network ∈ SupportedEVMNetworks := by
    simpa using hEvm
  constructor
  · obtain ⟨s, hs⟩ := getSigner_ok_of_supported _ (Or.inl hEvm)
    unfold refund
    simp [h1, hs]
  · intro network maxAmt resourceUrl description mimeType payTo maxTimeout asset eip712
    rfl

/-- C10 witness: a CAIP-2 `base` network refund with gate-built
requirements (no `amount` field): the transfer amount is absent. -/
theorem refund_evm_transfer_args_witness :
    refund id "0xRecipient"
      (buildEvmPaymentRequirements "eip155:8453" "10000" "https://x/y" none none "0xMe"
        none "0xToken" ⟨"USD Coin", "2"⟩) =
      Except.ok (some (TransferCall.evmTransfer "0xToken" "0xRecipient" none))
    ∧ (buildEvmPaymentRequirements "eip155:8453" "10000" "https://x/y" none none "0xMe"
        none "0xToken" ⟨"USD Coin", "2"⟩).amount = none := by
  have h := refund_evm_transfer_args id "0xRecipient"
    (buildEvmPaymentRequirements "eip155:8453" "10000" "https://x/y" none none "0xMe"
      none "0xToken" ⟨"USD Coin", "2"⟩) (by decide)
  exact ⟨h.1, h.2 "eip155:8453" "10000" "https://x/y" none none "0xMe" none "0xToken"
    ⟨"USD Coin", "2"⟩⟩

/-- C5 counterexample: a facilitator response whose body parses to the
JSON string `"hello"` (valid JSON, truthy, no boolean `isValid`) makes
`verify` throw a `TypeError` from evaluating `isValid in data` on a
primitive — it does not return a synthesized `{isValid: false}`
verdict, contradicting the claim that verify never throws in that
case. -/
theorem verify_primitive_body_counterexample :
    verifyHandleResponse (some (Json.str "hello")) 503 =
      Except.error "TypeError: cannot use in operator on a primitive" := by rfl

/-- C5 (amended): a parsed body that is an object with a boolean
`isValid` is returned as-is; a missing/unparseable body, a falsy body,
an array body, or an object body without a boolean `isValid` never
throws and yields `{isValid: false, invalidReason: m}`, where `m` is
extracted in priority order `error`, then `invalidReason` (joined with
a truthy `invalidMessage`), then `errorReason` (joined with a truthy
`errorMessage`), then `message`, falling back to
`facilitator_verify_http_<status>`; a body that parses to a truthy
JSON primitive, however, makes `verify` throw a `TypeError`. -/
theorem verify_soft_failure (data : Option Json) (status : Nat) :
    (∀ flds b, data = some (Json.obj flds) →
      jsonField (Json.obj flds) "isValid" = some (Json.bool b) →
      verifyHandleResponse data status = Except.ok (Json.obj flds))
    ∧ (data = none →
      verifyHandleResponse data status = Except.ok (verifySynthesized data status))
    ∧ (∀ d, data = some d → jsTruthy d = false →
      verifyHandleResponse data status = Except.ok (verifySynthesized data status))
    ∧ (∀ items, data = some (Json.arr items) →
      verifyHandleResponse data status = Except.ok (verifySynthesized data status))
    ∧ (∀ flds, data = some (Json.obj flds) →
      (∀ b, jsonField (Json.obj flds) "isValid" ≠ some (Json.bool b)) →
      verifyHandleResponse data status = Except.ok (verifySynthesized data status))
    ∧ (data = none →
      verifySynthesized data status = Json.obj [("isValid", Json.bool false),
        ("invalidReason", Json.str ("facilitator_verify_http_" ++ toString status))])
    ∧ (∀ d, data = some d → jsTruthy d = true →
      (∀ e, truthyField d "error" = some e →
        verifySynthesized data status =
          Json.obj [("isValid", Json.bool false), ("invalidReason", e)])
      ∧ (truthyField d "error" = none →
        (∀ ir, truthyField d "invalidReason" = some ir →
          (∀ im, truthyField d "invalidMessage" = some im →
            verifySynthesized data status = Json.obj [("isValid", Json.bool false),
              ("invalidReason", Json.str (jsToString ir ++ ": " ++ jsToString im))])
          ∧ (truthyField d "invalidMessage" = none →
            verifySynthesized data status =
              Json.obj [("isValid", Json.bool false), ("invalidReason", ir)]))
        ∧ (truthyField d "invalidReason" = none →
          (∀ er, truthyField d "errorReason" = some er →
            (∀ em, truthyField d "errorMessage" = some em →
              verifySynthesized data status = Json.obj [("isValid", Json.bool false),
                ("invalidReason", Json.str (jsToString er ++ ": " ++ jsToString em))])
            ∧ (truthyField d "errorMessage" = none →
              verifySynthesized data status =
                Json.obj [("isValid", Json.bool false), ("invalidReason", er)]))
          ∧ (truthyField d "errorReason" = none →
            (∀ m, truthyField d "message" = some m →
              verifySynthesized data status =
                Json.obj [("isValid", Json.bool false), ("invalidReason", m)])
            ∧ (truthyField d "message" = none →
              verifySynthesized data status = Json.obj [("isValid", Json.bool false),
                ("invalidReason", Json.str ("facilitator_verify_http_" ++ toString status))]))))) := by
  refine ⟨?_, ?_, ?_, ?_, ?_, ?_, ?_⟩
  · intro flds b hd hf
    subst hd
    simp only [verifyHandleResponse, jsTruthy, if_true, hf]
  · intro hd
    subst hd
    rfl
  · intro d hd ht
    subst hd
    simp only [verifyHandleResponse]
    rw [ht]
    cases d <;> simp_all [jsTruthy]
  · intro items hd
    subst hd
    rfl
  · intro flds hd hne
    subst hd
    rcases hf : jsonField (Json.obj flds) "isValid" with _ | v
    · simp only [verifyHandleResponse, jsTruthy, if_true, hf]
    · cases v with
      | bool b => exact absurd hf (hne b)
      | null => simp only [verifyHandleResponse, jsTruthy, if_true, hf]
      | num x => simp only [verifyHandleResponse, jsTruthy, if_true, hf]
      | str s => simp only [verifyHandleResponse, jsTruthy, if_true, hf]
      | arr items => simp only [verifyHandleResponse, jsTruthy, if_true, hf]
      | obj flds2 => simp only [verifyHandleResponse, jsTruthy, if_true, hf]
  · intro hd
    subst hd
    rfl
  · intro d hd ht
    subst hd
    refine ⟨?_, ?_⟩
    · intro e he
      simp only [verifySynthesized, extractErrorMessage, ht, Bool.not_true, if_neg, he,
        Bool.false_eq_true, not_false_eq_true]
    · intro herr
      refine ⟨?_, ?_⟩
      · intro ir hir
        refine ⟨?_, ?_⟩
        · intro im him
          simp only [verifySynthesized, extractErrorMessage, ht, Bool.not_true,
            Bool.false_eq_true, not_false_eq_true, if_neg, herr, hir, him]
        · intro him
          simp only [verifySynthesized, extractErrorMessage, ht, Bool.not_true,
            Bool.false_eq_true, not_false_eq_true, if_neg, herr, hir, him]
      · intro hir
        refine ⟨?_, ?_⟩
        · intro er her
          refine ⟨?_, ?_⟩
          · intro em hem
            simp only [verifySynthesized, extractErrorMessage, ht, Bool.not_true,
              Bool.false_eq_true, not_false_eq_true, if_neg, herr, hir, her, hem]
          · intro hem
            simp only [verifySynthesized, extractErrorMessage, ht, Bool.not_true,
              Bool.false_eq_true, not_false_eq_true, if_neg, herr, hir, her, hem]
        · intro her
          refine ⟨?_, ?_⟩
          · intro m hm
            simp only [verifySynthesized, extractErrorMessage, ht, Bool.not_true,
              Bool.false_eq_true, not_false_eq_true, if_neg, herr, hir, her, hm]
          · intro hm
            simp only [verifySynthesized, extractErrorMessage, ht, Bool.not_true,
              Bool.false_eq_true, not_false_eq_true, if_neg, herr, hir, her, hm]

/-- C5 witness: an error body `{errorReason, errorMessage}` with no
`isValid` synthesizes `{isValid:false, invalidReason:
"insufficient_funds: top up"}` without throwing. -/
theorem verify_soft_failure_witness :
    verifyHandleResponse
      (some (Json.obj [("errorReason", Json.str "insufficient_funds"),
        ("errorMessage", Json.str "top up")])) 402 =
      Except.ok (Json.obj [("isValid", Json.bool false),
        ("invalidReason", Json.str "insufficient_funds: top up")]) := by
  have h := verify_soft_failure
    (some (Json.obj [("errorReason", Json.str "insufficient_funds"),
      ("errorMessage", Json.str "top up")])) 402
  have h5 := h.2.2.2.2.1 _ rfl (by intro b hb; simp [jsonField] at hb)
  have h7 := ((((h.2.2.2.2.2.2 _ rfl rfl).2 rfl).2 rfl).1 _ rfl).1 _ rfl
  rw [h5, h7]
  rfl

theorem b64Val_b64Char : ∀ n, n < 64 → b64Val (b64Char n) = some n := by decide

theorem b64Char_ne_pad : ∀ n, n < 64 → b64Char n ≠ '=' := by decide

theorem base64Decode_encode : ∀ (bs : List Nat), (∀ b ∈ bs, b < 256) →
    base64Decode (base64Encode bs) = some bs
  | [], _ => rfl
  | [a], h => by
    have ha : a < 256 := h a (by simp)
    simp only [base64Encode, base64Decode,
      b64Val_b64Char (a / 4) (by omega), b64Val_b64Char (a % 4 * 16) (by omega),
      List.isEmpty_nil, Bool.and_true, decide_True, if_true, Option.some.injEq,
      List.cons.injEq, and_true]
    omega
  | [a, b], h => by
    have ha : a < 256 := h a (by simp)
    have hb : b < 256 := h b (by simp)
    simp only [base64Encode, base64Decode,
      b64Val_b64Char (a / 4) (by omega), b64Val_b64Char (a % 4 * 16 + b / 16) (by omega),
      b64Char_ne_pad (b % 16 * 4) (by omega), b64Val_b64Char (b % 16 * 4) (by omega),
      List.isEmpty_nil, if_true, if_false, ite_true, ite_false,
      Option.some.injEq, List.cons.injEq, and_true]
    omega
  | a :: b :: c :: rest, h => by
    have ha : a < 256 := h a (by simp)
    have hb : b < 256 := h b (by simp)
    have hc : c < 256 := h c (by simp)
    have ih := base64Decode_encode rest (fun x hx => h x (by simp [hx]))
    simp only [base64Encode, base64Decode,
      b64Val_b64Char (a / 4) (by omega), b64Val_b64Char (a % 4 * 16 + b / 16) (by omega),
      b64Char_ne_pad (b % 16 * 4 + c / 64) (by omega),
      b64Val_b64Char (b % 16 * 4 + c / 64) (by omega),
      b64Char_ne_pad (c % 64) (by omega), b64Val_b64Char (c % 64) (by omega),
      ih, if_false, ite_false]
    simp only [Option.map_some', Option.some.injEq, List.cons.injEq, eq_self_iff_true, and_true]
    omega


theorem char_toNat_valid (c : Char) :
    c.toNat < 55296 ∨ (57343 < c.toNat ∧ c.toNat < 1114112) := by
  have h := c.valid
  unfold UInt32.isValidChar at h
  unfold Nat.isValidChar at h
  exact h

theorem isCont_true (x : Nat) (h1 : 128 ≤ x) (h2 : x < 192) : isCont x = true := by
  simp only [isCont, Bool.and_eq_true, decide_eq_true_eq]
  omega

theorem utf8DecodeLoop_encodeChar (f : Nat) (c : Char) (rest : List Nat) :
    utf8DecodeLoop (f + 1) (utf8EncodeChar c.toNat ++ rest) =
      (utf8DecodeLoop f rest).map (fun l => c :: l) := by
  have hv := char_toNat_valid c
  by_cases h1 : c.toNat < 128
  · simp only [utf8EncodeChar, if_pos h1, List.cons_append, List.nil_append]
    simp only [utf8DecodeLoop, if_pos h1, Char.ofNat_toNat]
  · by_cases h2 : c.toNat < 2048
    · simp only [utf8EncodeChar, if_neg h1, if_pos h2, List.cons_append, List.nil_append]
      simp only [utf8DecodeLoop,
        if_neg (show ¬(192 + c.toNat / 64 < 128) by omega),
        if_neg (show ¬(192 + c.toNat / 64 < 192) by omega),
        if_pos (show 192 + c.toNat / 64 < 224 by omega),
        isCont_true (128 + c.toNat % 64) (by omega) (by omega),
        if_true]
      rw [show (192 + c.toNat / 64 - 192) * 64 + (128 + c.toNat % 64 - 128) = c.toNat by omega]
      rw [if_pos (show 128 ≤ c.toNat by omega), Char.ofNat_toNat]
    · by_cases h3 : c.toNat < 65536
      · simp only [utf8EncodeChar, if_neg h1, if_neg h2, if_pos h3, List.cons_append,
          List.nil_append]
        simp only [utf8DecodeLoop,
          if_neg (show ¬(224 + c.toNat / 4096 < 128) by omega),
          if_neg (show ¬(224 + c.toNat / 4096 < 192) by omega),
          if_neg (show ¬(224 + c.toNat / 4096 < 224) by omega),
          if_pos (show 224 + c.toNat / 4096 < 240 by omega),
          isCont_true (128 + c.toNat / 64 % 64) (by omega) (by omega),
          isCont_true (128 + c.toNat % 64) (by omega) (by omega),
          Bool.and_self, if_true]
        rw [show (224 + c.toNat / 4096 - 224) * 4096 + (128 + c.toNat / 64 % 64 - 128) * 64
            + (128 + c.toNat % 64 - 128) = c.toNat by omega]
        rw [if_pos (show (2048 ≤ c.toNat
            && !(55296 ≤ c.toNat && c.toNat < 57344)) = true by
          simp only [Bool.and_eq_true, decide_eq_true_eq, Bool.not_eq_true',
            Bool.and_eq_false_iff, decide_eq_false_iff_not]
          omega), Char.ofNat_toNat]
      · simp only [utf8EncodeChar, if_neg h1, if_neg h2, if_neg h3, List.cons_append,
          List.nil_append]
        simp only [utf8DecodeLoop,
          if_neg (show ¬(240 + c.toNat / 262144 < 128) by omega),
          if_neg (show ¬(240 + c.toNat / 262144 < 192) by omega),
          if_neg (show ¬(240 + c.toNat / 262144 < 224) by omega),
          if_neg (show ¬(240 + c.toNat / 262144 < 240) by omega),
          if_pos (show 240 + c.toNat / 262144 < 248 by omega),
          isCont_true (128 + c.toNat / 4096 % 64) (by omega) (by omega),
          isCont_true (128 + c.toNat / 64 % 64) (by omega) (by omega),
          isCont_true (128 + c.toNat % 64) (by omega) (by omega),
          Bool.and_self, if_true]
        rw [show (240 + c.toNat / 262144 - 240) * 262144 + (128 + c.toNat / 4096 % 64 - 128) * 4096
            + (128 + c.toNat / 64 % 64 - 128) * 64 + (128 + c.toNat % 64 - 128) = c.toNat by omega]
        rw [if_pos (show (65536 ≤ c.toNat && c.toNat < 1114112) = true by
          simp only [Bool.and_eq_true, decide_eq_true_eq]
          omega), Char.ofNat_toNat]

theorem utf8DecodeLoop_encode : ∀ (l : List Char) (f : Nat),
    utf8DecodeLoop (f + l.length) (utf8Encode l) = some l
  | [], f => by cases f <;> rfl
  | c :: rest, f => by
    have ih := utf8DecodeLoop_encode rest f
    rw [utf8Encode, show f + (c :: rest).length = (f + rest.length) + 1 by simp; omega,
      utf8DecodeLoop_encodeChar, ih]
    rfl

theorem utf8Encode_length_ge : ∀ l : List Char, l.length ≤ (utf8Encode l).length
  | [] => Nat.le_refl 0
  | c :: rest => by
    have ih := utf8Encode_length_ge rest
    have hc : 0 < (utf8EncodeChar c.toNat).length := by
      unfold utf8EncodeChar
      split_ifs <;> simp
    rw [utf8Encode]
    simp only [List.length_append, List.length_cons]
    omega

theorem utf8Decode_encode (l : List Char) : utf8Decode (utf8Encode l) = some l := by
  unfold utf8Decode
  obtain ⟨f, hf⟩ : ∃ f, (utf8Encode l).length = f + l.length :=
    ⟨(utf8Encode l).length - l.length, by have := utf8Encode_length_ge l; omega⟩
  rw [hf, utf8DecodeLoop_encode]

theorem utf8Encode_lt : ∀ (l : List Char) (b : Nat), b ∈ utf8Encode l → b < 256
  | c :: rest, b, hb => by
    rw [utf8Encode] at hb
    rcases List.mem_append.mp hb with h | h
    · have hv := char_toNat_valid c
      unfold utf8EncodeChar at h
      split_ifs at h <;> simp at h <;> omega
    · exact utf8Encode_lt rest b h

theorem hexVal_hexDigit : ∀ n, n < 16 → hexVal (hexDigit n) = some n := by decide

theorem parseEscape_quote (r : List Char) : parseEscape ('"' :: r) = some ('"', r) := rfl

theorem parseEscape_backslash (r : List Char) : parseEscape ('\\' :: r) = some ('\\', r) := rfl

theorem parseEscape_u00 (t : Nat) (ht : t < 32) (R : List Char) :
    parseEscape ('u' :: '0' :: '0' :: hexDigit (t / 16) :: hexDigit (t % 16) :: R) =
      some (Char.ofNat t, R) := by
  rw [parseEscape]
  simp only [reduceIte, hexVal_hexDigit (t / 16) (by omega), hexVal_hexDigit (t % 16) (by omega),
    show hexVal '0' = some 0 from rfl]
  rw [show (0 * 4096 + 0 * 256 + t / 16 * 16 + t % 16) = t by omega]
  rw [show (55296 ≤ t && t < 56320) = false by
    simp only [Bool.and_eq_false_iff, decide_eq_false_iff_not]; omega]
  rw [show (56320 ≤ t && t < 57344) = false by
    simp only [Bool.and_eq_false_iff, decide_eq_false_iff_not]; omega]
  rfl

theorem parseStringBodyLoop_escape : ∀ (s : List Char) (f : Nat) (Z : List Char),
    parseStringBodyLoop (f + s.length + 1) (escapeList s ++ '"' :: Z) = some (s, Z)
  | [], f, Z => by simp [escapeList, parseStringBodyLoop]
  | c :: s', f, Z => by
    have ih := parseStringBodyLoop_escape s' f Z
    rw [show escapeList (c :: s') ++ '"' :: Z = escapeChar c ++ (escapeList s' ++ '"' :: Z) by
      simp [escapeList, List.append_assoc]]
    rw [show f + (c :: s').length + 1 = (f + s'.length + 1) + 1 by simp; omega]
    by_cases h1 : c = '"'
    · subst h1
      rw [show escapeChar '"' = ['\\', '"'] from rfl]
      simp only [List.append_eq, List.cons_append, List.nil_append, parseStringBodyLoop,
        ite_true, ite_false, if_true, if_false]
      rw [parseEscape_quote]
      simp only [ih, Option.map_some']
      rw [if_neg (show ¬(('\\' : Char) = '"') by decide)]
    · by_cases h2 : c = '\\'
      · subst h2
        rw [show escapeChar '\\' = ['\\', '\\'] from rfl]
        simp only [List.append_eq, List.cons_append, List.nil_append, parseStringBodyLoop,
          ite_true, ite_false, if_true, if_false]
        rw [parseEscape_backslash]
        simp only [ih, Option.map_some']
        rw [if_neg (show ¬(('\\' : Char) = '"') by decide)]
      · by_cases h3 : c.toNat = 8
        · rw [show escapeChar c = ['\\', 'b'] by rw [escapeChar]; simp [h1, h2, h3]]
          simp only [List.append_eq, List.cons_append, List.nil_append, parseStringBodyLoop,
            ite_true, ite_false, if_true, if_false]
          rw [show parseEscape ('b' :: (escapeList s' ++ '"' :: Z)) =
            some (Char.ofNat 8, escapeList s' ++ '"' :: Z) from rfl]
          simp only [ih, Option.map_some']
          rw [show Char.ofNat 8 = c by rw [← h3, Char.ofNat_toNat]]
          rw [if_neg (show ¬(('\\' : Char) = '"') by decide)]
        · by_cases h4 : c.toNat = 9
          · rw [show escapeChar c = ['\\', 't'] by rw [escapeChar]; simp [h1, h2, h3, h4]]
            simp only [List.append_eq, List.cons_append, List.nil_append, parseStringBodyLoop,
              ite_true, ite_false, if_true, if_false]
            rw [show parseEscape ('t' :: (escapeList s' ++ '"' :: Z)) =
              some (Char.ofNat 9, escapeList s' ++ '"' :: Z) from rfl]
            simp only [ih, Option.map_some']
            rw [show Char.ofNat 9 = c by rw [← h4, Char.ofNat_toNat]]
            rw [if_neg (show ¬(('\\' : Char) = '"') by decide)]
          · by_cases h5 : c.toNat = 10
            · rw [show escapeChar c = ['\\', 'n'] by rw [escapeChar]; simp [h1, h2, h3, h4, h5]]
              simp only [List.append_eq, List.cons_append, List.nil_append, parseStringBodyLoop,
                ite_true, ite_false, if_true, if_false]
              rw [show parseEscape ('n' :: (escapeList s' ++ '"' :: Z)) =
                some (Char.ofNat 10, escapeList s' ++ '"' :: Z) from rfl]
              simp only [ih, Option.map_some']
              rw [show Char.ofNat 10 = c by rw [← h5, Char.ofNat_toNat]]
              rw [if_neg (show ¬(('\\' : Char) = '"') by decide)]
            · by_cases h6 : c.toNat = 12
              · rw [show escapeChar c = ['\\', 'f'] by rw [escapeChar]; simp [h1, h2, h3, h4, h5, h6]]
                simp only [List.append_eq, List.cons_append, List.nil_append, parseStringBodyLoop,
                  ite_true, ite_false, if_true, if_false]
                rw [show parseEscape ('f' :: (escapeList s' ++ '"' :: Z)) =
                  some (Char.ofNat 12, escapeList s' ++ '"' :: Z) from rfl]
                simp only [ih, Option.map_some']
                rw [show Char.ofNat 12 = c by rw [← h6, Char.ofNat_toNat]]
                rw [if_neg (show ¬(('\\' : Char) = '"') by decide)]
              · by_cases h7 : c.toNat = 13
                · rw [show escapeChar c = ['\\', 'r'] by rw [escapeChar]; simp [h1, h2, h3, h4, h5, h6, h7]]
                  simp only [List.append_eq, List.cons_append, List.nil_append, parseStringBodyLoop,
                    ite_true, ite_false, if_true, if_false]
                  rw [show parseEscape ('r' :: (escapeList s' ++ '"' :: Z)) =
                    some (Char.ofNat 13, escapeList s' ++ '"' :: Z) from rfl]
                  simp only [ih, Option.map_some']
                  rw [show Char.ofNat 13 = c by rw [← h7, Char.ofNat_toNat]]
                  rw [if_neg (show ¬(('\\' : Char) = '"') by decide)]
                · by_cases h8 : c.toNat < 32
                  · rw [show escapeChar c = ['\\', 'u', '0', '0', hexDigit (c.toNat / 16),
                        hexDigit (c.toNat % 16)] by
                      rw [escapeChar]; simp [h1, h2, h3, h4, h5, h6, h7, h8]]
                    simp only [List.append_eq, List.cons_append, List.nil_append,
                      parseStringBodyLoop, ite_true, ite_false, if_true, if_false]
                    rw [parseEscape_u00 c.toNat h8 (escapeList s' ++ '"' :: Z)]
                    simp only [ih, Option.map_some', Char.ofNat_toNat]
                    rw [if_neg (show ¬(('\\' : Char) = '"') by decide)]
                  · rw [show escapeChar c = [c] by
                      rw [escapeChar]; simp [h1, h2, h3, h4, h5, h6, h7, h8]]
                    simp only [List.append_eq, List.cons_append, List.nil_append,
                      parseStringBodyLoop]
                    rw [if_neg h1, if_neg h2, if_neg h8]
                    simp only [ih, Option.map_some']

theorem escapeChar_length_pos (c : Char) : 0 < (escapeChar c).length := by
  rw [escapeChar]
  split_ifs <;> simp

theorem escapeList_length_ge : ∀ s : List Char, s.length ≤ (escapeList s).length
  | [] => Nat.le_refl 0
  | c :: s' => by
    have ih := escapeList_length_ge s'
    have hc := escapeChar_length_pos c
    rw [escapeList]
    simp only [List.length_append, List.length_cons]
    omega

theorem parseStringBody_escape (s Z : List Char) :
    parseStringBody (escapeList s ++ '"' :: Z) = some (s, Z) := by
  unfold parseStringBody
  obtain ⟨f, hf⟩ : ∃ f, (escapeList s ++ '"' :: Z).length = f + s.length + 1 :=
    ⟨(escapeList s).length - s.length + Z.length, by
      have := escapeList_length_ge s
      simp only [List.length_append, List.length_cons]
      omega⟩
  rw [hf, parseStringBodyLoop_escape]

theorem skipWs_quote (X : List Char) : skipWs ('"' :: X) = '"' :: X := rfl

theorem skipWs_colon (X : List Char) : skipWs (':' :: X) = ':' :: X := rfl

theorem skipWs_comma (X : List Char) : skipWs (',' :: X) = ',' :: X := rfl

theorem skipWs_rbrace (X : List Char) : skipWs ('}' :: X) = '}' :: X := rfl

theorem parseValue_simple (f : Nat) (v : Json) (h : simpleJson v = true) (Z : List Char) :
    parseValue (f + 1) (serializeJson v ++ Z) = some (v, Z) := by
  cases v with
  | bool b =>
    cases b
    · rw [show serializeJson (Json.bool false) = ['f', 'a', 'l', 's', 'e'] from rfl]
      rfl
    · rw [show serializeJson (Json.bool true) = ['t', 'r', 'u', 'e'] from rfl]
      rfl
  | str s =>
    rw [show serializeJson (Json.str s) ++ Z = '"' :: (escapeList s.data ++ '"' :: Z) by
      simp [serializeJson, List.append_assoc]]
    rw [show parseValue (f + 1) ('"' :: (escapeList s.data ++ '"' :: Z))
        = (parseStringBody (escapeList s.data ++ '"' :: Z)).map
            (fun p => (Json.str (String.mk p.1), p.2)) from rfl]
    rw [parseStringBody_escape]
    rfl
  | null => simp [simpleJson] at h
  | num x => simp [simpleJson] at h
  | arr items => simp [simpleJson] at h
  | obj fields => simp [simpleJson] at h

theorem parseMembers_simple : ∀ (fields : List (String × Json)) (f : Nat) (Z : List Char),
    fields ≠ [] → (∀ kv ∈ fields, simpleJson kv.2 = true) →
    parseMembers (f + 2 * fields.length) (serializeMembers fields ++ '}' :: Z) = some (fields, Z)
  | [], _, _, hne, _ => absurd rfl hne
  | [(k, v)], f, Z, _, hs => by
    have hv := hs (k, v) (by simp)
    rw [show serializeMembers [(k, v)] ++ '}' :: Z
        = '"' :: (escapeList k.data ++ '"' :: ':' :: (serializeJson v ++ '}' :: Z)) by
      simp [serializeMembers, List.append_assoc]]
    rw [show f + 2 * [(k, v)].length = (f + 1) + 1 by simp]
    generalize hF : f + 1 = F
    simp only [parseMembers, skipWs_quote]
    rw [parseStringBody_escape]
    simp only [skipWs_colon]
    subst hF
    rw [parseValue_simple f v hv ('}' :: Z)]
    simp only [skipWs_rbrace]
  | (k, v) :: kv2 :: rest, f, Z, _, hs => by
    have hv := hs (k, v) (by simp)
    have ih := parseMembers_simple (kv2 :: rest) (f + 1) Z (by simp)
      (fun kv hkv => hs kv (by simp [hkv]))
    rw [show (f + 1) + 2 * (kv2 :: rest).length
        = f + 2 * (kv2 :: rest).length + 1 by omega] at ih
    rw [show serializeMembers ((k, v) :: kv2 :: rest) ++ '}' :: Z
        = '"' :: (escapeList k.data ++ '"' :: ':'
            :: (serializeJson v ++ ',' :: (serializeMembers (kv2 :: rest) ++ '}' :: Z))) by
      simp [serializeMembers, List.append_assoc]]
    rw [show f + 2 * ((k, v) :: kv2 :: rest).length
        = (f + 2 * (kv2 :: rest).length + 1) + 1 by simp; omega]
    generalize hF : f + 2 * (kv2 :: rest).length + 1 = F
    simp only [parseMembers, skipWs_quote]
    rw [parseStringBody_escape]
    simp only [skipWs_colon]
    subst hF
    rw [parseValue_simple (f + 2 * (kv2 :: rest).length) v hv
      (',' :: (serializeMembers (kv2 :: rest) ++ '}' :: Z))]
    simp only [skipWs_comma]
    rw [ih]
    rfl

theorem skipWs_lbrace (X : List Char) : skipWs ('{' :: X) = '{' :: X := rfl

theorem serializeMembers_cons : ∀ (kv : String × Json) (rest : List (String × Json)),
    ∃ t, serializeMembers (kv :: rest) = '"' :: t
  | _, [] => ⟨_, rfl⟩
  | _, _ :: _ => ⟨_, rfl⟩

theorem parseValue_obj_simple (f : Nat) (kv : String × Json)
    (rest : List (String × Json)) (Z : List Char)
    (hs : ∀ p ∈ kv :: rest, simpleJson p.2 = true) :
    parseValue (f + 2 * (kv :: rest).length + 1) (serializeJson (Json.obj (kv :: rest)) ++ Z)
      = some (Json.obj (kv :: rest), Z) := by
  obtain ⟨t, ht⟩ := serializeMembers_cons kv rest
  have hpm := parseMembers_simple (kv :: rest) f Z (by simp) hs
  rw [show serializeJson (Json.obj (kv :: rest)) ++ Z
      = '{' :: (serializeMembers (kv :: rest) ++ '}' :: Z) by
    simp [serializeJson, List.append_assoc]]
  generalize hF : f + 2 * (kv :: rest).length = F at hpm ⊢
  rw [ht] at hpm ⊢
  simp only [List.cons_append] at hpm ⊢
  simp only [parseValue, skipWs_lbrace]
  rw [if_neg (show ¬(('\x7b' : Char) = 'n') by decide),
      if_neg (show ¬(('\x7b' : Char) = 't') by decide),
      if_neg (show ¬(('\x7b' : Char) = 'f') by decide),
      if_neg (show ¬(('\x7b' : Char) = '"') by decide),
      if_neg (show ¬(('\x7b' : Char) = '[') by decide),
      if_pos trivial]
  rw [skipWs_quote]
  show Option.map (fun p => (Json.obj p.1, p.2)) (parseMembers F ('"' :: (t ++ '\x7d' :: Z)))
      = some (Json.obj (kv :: rest), Z)
  rw [hpm]
  rfl

theorem serializeMembers_length_ge : ∀ fields : List (String × Json),
    2 * fields.length ≤ (serializeMembers fields).length
  | [] => Nat.le_refl 0
  | [kv] => by
    simp only [serializeMembers, List.length_cons, List.length_append, List.length_nil]
    omega
  | kv :: kv2 :: rest => by
    have ih := serializeMembers_length_ge (kv2 :: rest)
    simp only [serializeMembers, List.length_append, List.length_cons, List.length_nil] at ih ⊢
    omega

theorem jsonParse_serialize_obj (fields : List (String × Json))
    (hne : fields ≠ []) (hs : ∀ kv ∈ fields, simpleJson kv.2 = true) :
    jsonParse (serializeJson (Json.obj fields)) = some (Json.obj fields) := by
  cases fields with
  | nil => exact absurd rfl hne
  | cons kv rest =>
    have hlen : 2 * (kv :: rest).length ≤ (serializeJson (Json.obj (kv :: rest))).length := by
      have := serializeMembers_length_ge (kv :: rest)
      simp only [serializeJson, List.length_cons, List.length_append, List.length_nil] at this ⊢
      omega
    unfold jsonParse
    obtain ⟨f, hf⟩ : ∃ f, (serializeJson (Json.obj (kv :: rest))).length + 1
        = f + 2 * (kv :: rest).length + 1 :=
      ⟨(serializeJson (Json.obj (kv :: rest))).length - 2 * (kv :: rest).length, by omega⟩
    rw [hf]
    have h := parseValue_obj_simple f kv rest [] hs
    rw [List.append_nil] at h
    rw [h]
    rfl

theorem decodeBase64Json_safeEncode (text : List Char) :
    decodeBase64Json (safeBase64Encode text) = jsonParse text := by
  unfold decodeBase64Json safeBase64Encode
  rw [base64Decode_encode (utf8Encode text) (utf8Encode_lt text)]
  show (match utf8Decode (utf8Encode text) with
    | none => none
    | some chars => jsonParse chars) = jsonParse text
  rw [utf8Decode_encode]

theorem decode_encodePaymentResponseHeader (t n p : String) :
    decodeBase64Json (encodePaymentResponseHeader t n p)
      = some (responseHeaderData t n p) := by
  rw [encodePaymentResponseHeader, decodeBase64Json_safeEncode]
  apply jsonParse_serialize_obj
  · simp [responseHeaderData]
  · intro kv hkv
    simp only [responseHeaderData, List.mem_cons, List.not_mem_nil, or_false] at hkv
    rcases hkv with rfl | rfl | rfl | rfl | rfl | rfl <;> rfl

theorem find?_first {α : Type} (pred : α → Bool) : ∀ (l : List α) (r : α),
    l.find? pred = some r →
    ∃ l1 l2, l = l1 ++ r :: l2 ∧ pred r = true ∧ ∀ q ∈ l1, pred q = false
  | [], r, h => by simp [List.find?] at h
  | a :: t, r, h => by
    by_cases ha : pred a = true
    · rw [List.find?_cons_of_pos _ ha] at h
      injection h with h
      subst h
      exact ⟨[], t, rfl, ha, by simp⟩
    · rw [List.find?_cons_of_neg _ ha] at h
      obtain ⟨l1, l2, hsplit, hr, hl1⟩ := find?_first pred t r h
      subst hsplit
      refine ⟨a :: l1, l2, rfl, hr, ?_⟩
      intro q hq
      rcases List.mem_cons.mp hq with rfl | hq
      · exact Bool.not_eq_true _ ▸ Bool.eq_false_iff.mpr ha
      · exact hl1 q hq

/-- C8: for every settlement result with string fields `transaction`,
`network` and `payer`, encoding the payment-response header
(`safeBase64Encode(JSON.stringify(responseHeaderData))`) and decoding
it on the content-handler side (`JSON.parse(atob(header))`) recovers
exactly the same `transaction`, `network` and `payer` values. -/
theorem paymentResponseHeader_roundtrip (t n p : String) :
    ∃ j, decodeBase64Json (encodePaymentResponseHeader t n p) = some j
      ∧ jsonField j "transaction" = some (Json.str t)
      ∧ jsonField j "network" = some (Json.str n)
      ∧ jsonField j "payer" = some (Json.str p) :=
  ⟨responseHeaderData t n p, decode_encodePaymentResponseHeader t n p, rfl, rfl, rfl⟩

/-- C1: a proof-of-payment header whose decode fails (not valid base64,
or valid base64 whose content is not JSON) makes the Payment Gate
answer 402 with the `Invalid payment` error and the accepts list;
the stage is a total function, so the decoding exception never
propagates and the status is 402, never 500. -/
theorem malformed_header_402 (paymentHeader : List Char)
    (reqs : List PaymentRequirements)
    (h : decodePayment paymentHeader = none) :
    paymentVerificationStage paymentHeader reqs
      = VerifyStage.response402 "Invalid payment" reqs
    ∧ (paymentVerificationStage paymentHeader reqs).status = some 402
    ∧ (paymentVerificationStage paymentHeader reqs).status ≠ some 500 := by
  have h1 : paymentVerificationStage paymentHeader reqs
      = VerifyStage.response402 "Invalid payment" reqs := by
    unfold paymentVerificationStage
    rw [h]
  refine ⟨h1, ?_, ?_⟩
  · rw [h1]
    rfl
  · rw [h1]
    intro hc
    simp [VerifyStage.status] at hc

/-- C1 witness: the header `"!!!"` is not valid base64; the gate
answers 402 `Invalid payment`. -/
theorem malformed_header_402_witness :
    decodePayment "!!!".data = none
    ∧ paymentVerificationStage "!!!".data []
        = VerifyStage.response402 "Invalid payment" [] :=
  ⟨rfl, (malformed_header_402 "!!!".data [] rfl).1⟩

/-- C7 counterexample: a payload that HAS an `accepted` field holding
`null` (so the field is present but falsy).  The claim says the
function then returns the first requirement matching `accepted`'s
`(scheme, network)` — that matcher finds nothing here — yet the code
checks truthiness, takes the top-level fallback, and returns a
requirement. -/
theorem findMatching_accepted_counterexample :
    jsonField (Json.obj [("accepted", Json.null), ("network", Json.str "base")]) "accepted"
        = some Json.null
    ∧ findMatchingPaymentRequirements
        [⟨"exact", "base", "0xM", "0xA", none, some "10000", 300, none, none, none, []⟩]
        (payloadOfJson (Json.obj [("accepted", Json.null), ("network", Json.str "base")]))
      = some ⟨"exact", "base", "0xM", "0xA", none, some "10000", 300, none, none, none, []⟩
    ∧ [(⟨"exact", "base", "0xM", "0xA", none, some "10000", 300, none, none, none, []⟩
          : PaymentRequirements)].find?
        (fun req => strictEqStr req.scheme (jsonField Json.null "scheme")
          && strictEqStr req.network (jsonField Json.null "network")) = none :=
  ⟨rfl, rfl, rfl⟩

/-- C7 (amended): with a truthy `accepted` value the function returns
the first requirement whose `(scheme, network)` strictly equals
`accepted`'s; with `accepted` absent — or present but falsy — it falls
back to the top-level `scheme` (defaulting to `"exact"`) and `network`;
`find?` returns the first match and `none` exactly when nothing
matches; and a `none` result makes the gate answer 402
`Unable to find matching payment requirements`. -/
theorem findMatching_characterization (reqs : List PaymentRequirements) (p : PaymentPayload) :
    (∀ acc, p.accepted = some acc → jsTruthy acc = true →
      findMatchingPaymentRequirements reqs p
        = reqs.find? (fun req =>
            strictEqStr req.scheme (jsonField acc "scheme")
              && strictEqStr req.network (jsonField acc "network")))
    ∧ (p.accepted = none →
      findMatchingPaymentRequirements reqs p = findMatchingFallback reqs p)
    ∧ (∀ acc, p.accepted = some acc → jsTruthy acc = false →
      findMatchingPaymentRequirements reqs p = findMatchingFallback reqs p)
    ∧ (∀ pred : PaymentRequirements → Bool, ∀ r, reqs.find? pred = some r →
        ∃ l1 l2, reqs = l1 ++ r :: l2 ∧ pred r = true ∧ ∀ q ∈ l1, pred q = false)
    ∧ (∀ pred : PaymentRequirements → Bool,
        reqs.find? pred = none ↔ ∀ q ∈ reqs, pred q = false)
    ∧ (findMatchingPaymentRequirements reqs p = none →
        ∀ header j, decodePayment header = some j → payloadOfJson j = p →
          paymentVerificationStage header reqs
            = VerifyStage.response402 "Unable to find matching payment requirements" reqs) := by
  refine ⟨?_, ?_, ?_, fun pred r h => find?_first pred reqs r h, ?_, ?_⟩
  · intro acc ha ht
    unfold findMatchingPaymentRequirements
    rw [ha]
    simp [ht]
  · intro ha
    unfold findMatchingPaymentRequirements
    rw [ha]
  · intro acc ha hf
    unfold findMatchingPaymentRequirements
    rw [ha]
    simp [hf]
  · intro pred
    constructor
    · intro h q hq
      have := List.find?_eq_none.mp h q hq
      simpa using this
    · intro h
      exact List.find?_eq_none.mpr (fun q hq => by simp [h q hq])
  · intro hnone header j hdec hpj
    unfold paymentVerificationStage
    rw [hdec]
    show (match findMatchingPaymentRequirements reqs (payloadOfJson j) with
      | none => VerifyStage.response402 "Unable to find matching payment requirements" reqs
      | some sel => VerifyStage.proceed sel)
      = VerifyStage.response402 "Unable to find matching payment requirements" reqs
    rw [hpj, hnone]

/-- C7 witness: a payload whose truthy `accepted` carries
`(exact, base)` selects the matching requirement via the strict
`(scheme, network)` matcher. -/
theorem findMatching_characterization_witness :
    findMatchingPaymentRequirements
        [⟨"exact", "base", "0xM", "0xA", none, some "10000", 300, none, none, none, []⟩]
        (payloadOfJson (Json.obj [("accepted",
          Json.obj [("scheme", Json.str "exact"), ("network", Json.str "base")])]))
      = [(⟨"exact", "base", "0xM", "0xA", none, some "10000", 300, none, none, none, []⟩
            : PaymentRequirements)].find?
          (fun req =>
            strictEqStr req.scheme (jsonField
              (Json.obj [("scheme", Json.str "exact"), ("network", Json.str "base")]) "scheme")
              && strictEqStr req.network (jsonField
                (Json.obj [("scheme", Json.str "exact"), ("network", Json.str "base")]) "network")) :=
  (findMatching_characterization
      [⟨"exact", "base", "0xM", "0xA", none, some "10000", 300, none, none, none, []⟩]
      (payloadOfJson (Json.obj [("accepted",
        Json.obj [("scheme", Json.str "exact"), ("network", Json.str "base")])]))).1
    (Json.obj [("scheme", Json.str "exact"), ("network", Json.str "base")]) rfl rfl

/-- C9 counterexample: a request with JSON content type whose body is
the JSON text `null` parses successfully (no `SyntaxError`), so the
`catch` does not apply; `body.amount` then throws a `TypeError`, which
the source deliberately rethrows — the request crashes instead of
keeping the configured default price, contradicting the claim that any
absent/invalid `amount` leaves the default in force. -/
theorem getRequestedAmount_null_body_counterexample :
    getRequestedAmount (some "4") (some "application/json") (some Json.null)
        (Price.str "$0.01")
      = Except.error "TypeError: Cannot read properties of null (reading 'amount')"
    ∧ getRequestedAmount (some "4") (some "application/json") (some Json.null)
        (Price.str "$0.01")
      ≠ Except.ok (convertPriceToString (Price.str "$0.01")) := by
  refine ⟨rfl, ?_⟩
  intro h
  rw [show getRequestedAmount (some "4") (some "application/json") (some Json.null)
      (Price.str "$0.01")
    = Except.error "TypeError: Cannot read properties of null (reading 'amount')"
    from rfl] at h
  exact Except.noConfusion h

/-- C9 (amended): a JSON request body parsing to an object with numeric
`amount > 0` (behind non-empty `content-length` and a JSON
`content-type`) replaces the route's configured price with the
client-supplied `$<amount.toFixed(2)>`; a missing body, empty or `"0"`
content length, non-JSON content type, or unparseable body
(`SyntaxError`) keeps the configured default price, as does a parsed
non-null body without a positive numeric `amount` — but a body parsing
to JSON `null` throws a `TypeError` at `body.amount`, which the
`catch` rethrows. -/
theorem getRequestedAmount_client_control (contentLength contentType : Option String)
    (body : Option Json) (cfg : RouteConfig) :
    (∀ cl ct b x, contentLength = some cl → cl.isEmpty = false → cl ≠ "0" →
      contentType = some ct → containsSub ct.data "application/json".data = true →
      body = some b → jsonField b "amount" = some (Json.num x) → 0 < x.num →
      getRequestedAmount contentLength contentType body cfg.price
          = Except.ok ("$" ++ jsToFixed2 (JSNum.num x))
        ∧ dynamicRouteConfig cfg ("$" ++ jsToFixed2 (JSNum.num x))
          = { cfg with price := Price.str ("$" ++ jsToFixed2 (JSNum.num x)) })
    ∧ ((contentLength = none ∨ contentLength = some "" ∨ contentLength = some "0"
        ∨ contentType = none
        ∨ (∃ ct, contentType = some ct ∧ containsSub ct.data "application/json".data = false)
        ∨ body = none) →
      getRequestedAmount contentLength contentType body cfg.price
        = Except.ok (convertPriceToString cfg.price))
    ∧ (∀ cl ct, contentLength = some cl → cl.isEmpty = false → cl ≠ "0" →
      contentType = some ct → containsSub ct.data "application/json".data = true →
      body = some Json.null →
      getRequestedAmount contentLength contentType body cfg.price
        = Except.error "TypeError: Cannot read properties of null (reading 'amount')")
    ∧ (∀ b, body = some b → b ≠ Json.null →
      (∀ x, jsonField b "amount" = some (Json.num x) → x.num ≤ 0) →
      getRequestedAmount contentLength contentType body cfg.price
        = Except.ok (convertPriceToString cfg.price)) := by
  refine ⟨?_, ?_, ?_, ?_⟩
  · intro cl ct b x hcl hclE hcl0 hct hcs hb hax hx
    subst hcl
    subst hct
    subst hb
    refine ⟨?_, rfl⟩
    cases b with
    | null => simp [jsonField] at hax
    | bool b2 => simp [jsonField] at hax
    | num y => simp [jsonField] at hax
    | str s => simp [jsonField] at hax
    | arr items => simp [jsonField] at hax
    | obj flds =>
      unfold getRequestedAmount
      simp [hclE, hcl0, hcs, hax, jsTruthy, hx, ne_of_gt hx]
  · intro hcase
    rcases hcase with h | h | h | h | ⟨ct, hct, hcs⟩ | h
    · subst h
      simp [getRequestedAmount]
    · subst h
      simp [getRequestedAmount, show String.isEmpty "" = true from rfl]
    · subst h
      simp [getRequestedAmount]
    · subst h
      simp [getRequestedAmount]
    · subst hct
      simp [getRequestedAmount, hcs]
    · subst h
      simp [getRequestedAmount, ite_self]
  · intro cl ct hcl hclE hcl0 hct hcs hb
    subst hcl
    subst hct
    subst hb
    unfold getRequestedAmount
    simp [hclE, hcl0, hcs]
  · intro b hb hnull hle
    subst hb
    unfold getRequestedAmount
    split
    · rfl
    · cases b with
      | null => exact absurd rfl hnull
      | bool b2 => rfl
      | num y => rfl
      | str s => rfl
      | arr items => rfl
      | obj flds =>
        show (match jsonField (Json.obj flds) "amount" with
          | some (Json.num x) =>
            if jsTruthy (Json.num x) && decide (0 < x.num) then
              Except.ok ("$" ++ jsToFixed2 (JSNum.num x))
            else Except.ok (convertPriceToString cfg.price)
          | _ => Except.ok (convertPriceToString cfg.price))
          = Except.ok (convertPriceToString cfg.price)
        cases hax : jsonField (Json.obj flds) "amount" with
        | none => rfl
        | some v =>
          cases v with
          | num x =>
            have hnp : ¬(0 < x.num) := not_lt.mpr (hle x hax)
            simp [hnp]
          | null => rfl
          | bool b2 => rfl
          | str s => rfl
          | arr items => rfl
          | obj fields => rfl

/-- C9 witness: body `{"amount": 2}` with JSON content type replaces
the configured price with `$2.00`. -/
theorem getRequestedAmount_client_control_witness :
    getRequestedAmount (some "5") (some "application/json")
        (some (Json.obj [("amount", Json.num ⟨2, 1, Nat.one_pos⟩)])) (Price.str "$0.01")
      = Except.ok ("$" ++ jsToFixed2 (JSNum.num ⟨2, 1, Nat.one_pos⟩)) :=
  ((getRequestedAmount_client_control (some "5") (some "application/json")
      (some (Json.obj [("amount", Json.num ⟨2, 1, Nat.one_pos⟩)]))
      ⟨Price.str "$0.01", "base"⟩).1
    "5" "application/json" (Json.obj [("amount", Json.num ⟨2, 1, Nat.one_pos⟩)])
    ⟨2, 1, Nat.one_pos⟩ rfl rfl (by decide) rfl (by decide) rfl rfl (by decide)).1

theorem handlePaidContent_decoded (t n p dn : String) (wantsHtml : Bool) (rh : Option String) :
    handlePaidContentRequest (some (encodePaymentResponseHeader t n p)) wantsHtml dn rh
      = { status := 200
          contentType := if wantsHtml then "text/html; charset=utf-8" else "application/json"
          error := none
          transaction := some t
          network := some n
          payer := some p
          premiumContent := some "Have some rizz!"
          refundTransaction := rh
          refundFailed := rh.isNone } := by
  simp only [handlePaidContentRequest, decode_encodePaymentResponseHeader]
  rfl

/-- C6: once a payment settles successfully with a non-empty payer, the
final response is rendered through the paid-content handler with HTTP
status 200 regardless of the refund sub-request's outcome: a
successful refund puts its hash in `refundTransaction`, a failed one
sets `refundFailed` instead, and both deliver the premium content. -/
theorem settled_response_200 (settlement : SettleOutcome) (vp : Option String)
    (wantsHtml : Bool) (network : String) (refundOutcome : RefundCallOutcome)
    (hs : settlement.success = true)
    (hp : jsOrElse settlement.payer vp ≠ "") :
    (postSettlementPhase settlement vp refundOutcome wantsHtml network).status = 200
    ∧ (∀ hash, refundOutcome = RefundCallOutcome.ok hash →
        ∃ resp header,
          postSettlementPhase settlement vp refundOutcome wantsHtml network
            = GateFinal.handlerResponse resp header
          ∧ resp.status = 200 ∧ resp.refundTransaction = some hash
          ∧ resp.refundFailed = false ∧ resp.premiumContent = some "Have some rizz!")
    ∧ (refundOutcome = RefundCallOutcome.httpError →
        ∃ resp header,
          postSettlementPhase settlement vp refundOutcome wantsHtml network
            = GateFinal.handlerResponse resp header
          ∧ resp.status = 200 ∧ resp.refundTransaction = none
          ∧ resp.refundFailed = true ∧ resp.premiumContent = some "Have some rizz!") := by
  cases refundOutcome with
  | ok hash =>
    have hpost : postSettlementPhase settlement vp (RefundCallOutcome.ok hash) wantsHtml network
        = GateFinal.handlerResponse
            (handlePaidContentRequest (some (encodePaymentResponseHeader settlement.transaction
                settlement.network (jsOrElse settlement.payer vp))) wantsHtml network (some hash))
            (encodePaymentResponseHeader settlement.transaction settlement.network
              (jsOrElse settlement.payer vp)) := by
      unfold postSettlementPhase
      rw [if_pos hs, if_neg hp]
    refine ⟨?_, ?_, ?_⟩
    · rw [hpost, GateFinal.status, handlePaidContent_decoded]
    · intro hash2 heq
      cases heq
      refine ⟨_, _, hpost, ?_, ?_, ?_, ?_⟩ <;> simp [handlePaidContent_decoded]
    · intro heq
      exact RefundCallOutcome.noConfusion heq
  | httpError =>
    have hpost : postSettlementPhase settlement vp RefundCallOutcome.httpError wantsHtml network
        = GateFinal.handlerResponse
            (handlePaidContentRequest (some (encodePaymentResponseHeader settlement.transaction
                settlement.network (jsOrElse settlement.payer vp))) wantsHtml network none)
            (encodePaymentResponseHeader settlement.transaction settlement.network
              (jsOrElse settlement.payer vp)) := by
      unfold postSettlementPhase
      rw [if_pos hs, if_neg hp]
    refine ⟨?_, ?_, ?_⟩
    · rw [hpost, GateFinal.status, handlePaidContent_decoded]
    · intro hash2 heq
      exact RefundCallOutcome.noConfusion heq
    · intro heq
      refine ⟨_, _, hpost, ?_, ?_, ?_, ?_⟩ <;> simp [handlePaidContent_decoded]

/-- C6 witness: a settled payment with payer `0xp`; with a refund hash
the status is 200, and it is also 200 when the refund call fails. -/
theorem settled_response_200_witness :
    (postSettlementPhase ⟨true, "0xabc", "base", some "0xp", none⟩ none
        (RefundCallOutcome.ok "0xr") false "base").status = 200
    ∧ (postSettlementPhase ⟨true, "0xabc", "base", some "0xp", none⟩ none
        RefundCallOutcome.httpError false "base").status = 200 :=
  ⟨(settled_response_200 ⟨true, "0xabc", "base", some "0xp", none⟩ none false "base"
      (RefundCallOutcome.ok "0xr") rfl (by decide)).1,
    (settled_response_200 ⟨true, "0xabc", "base", some "0xp", none⟩ none false "base"
      RefundCallOutcome.httpError rfl (by decide)).1⟩
